import Mathlib

/-!
Verification development for the `manycore_parser` repository: a shallow
embedding of its topology data model (cores, channels, mesh-boundary
endpoints) and of its dimension-order routing engine, together with
theorems settling the specification claims.

Machine integers (`u8`, `u16`, `usize`) are embedded as `Nat`; where the
Rust code performs arithmetic that can overflow, the wrap-around of release
builds is made explicit with `% 2^w`.  `HashMap` and `BTreeMap` values are
embedded as association lists (`BTreeMap` as a list kept sorted by key).
Fallible Rust code returning `Result` is embedded with `Except`.
-/

/-- `U16_MOD = 2^16`: modulus of Rust's `u16` wrap-around arithmetic. -/
def U16_MOD : Nat := 65536

/-- `U8_MOD = 2^8`: modulus of Rust's `u8` wrap-around arithmetic. -/
def U8_MOD : Nat := 256

/-! ## channels.rs: `Directions`, `Channel`, `Channels` -/

/-- `channels.rs` `Directions`: all allowed channel directions, in
declaration order (North, South, West, East).  The Rust enum derives `Ord`,
which orders variants by declaration order. -/
inductive Directions where
  | North
  | South
  | West
  | East
deriving DecidableEq, Repr

/-- The rank of a direction under the derived `Ord` instance of
`Directions` (declaration order: North < South < West < East). -/
def Directions.rank : Directions → Nat
  | .North => 0
  | .South => 1
  | .West => 2
  | .East => 3

/-- `channels.rs` `Channel`: direction, `bandwidth`, `actualComCost`,
derived mutable `current_load` (all `u16`), plus any leftover XML
attributes. -/
structure Channel where
  direction : Directions
  bandwidth : Nat
  actual_com_cost : Nat
  current_load : Nat
  other_attributes : Option (List (String × String)) := none
deriving DecidableEq, Repr

/-- `channels.rs` `Channel::new`: `current_load` starts at 0. -/
def Channel.new (direction : Directions) (actual_com_cost bandwidth : Nat)
    (other_attributes : Option (List (String × String))) : Channel :=
  { direction, actual_com_cost, bandwidth, other_attributes, current_load := 0 }

/-- `channels.rs` `Channel::add_to_cost`: `self.current_load += cost;`.
Plain `u16` addition: wraps modulo `2^16` in release builds (panics in
debug builds); it does NOT saturate. -/
def Channel.add_to_cost (c : Channel) (cost : Nat) : Channel :=
  { c with current_load := (c.current_load + cost) % U16_MOD }

/-- Insertion into the `BTreeMap<Directions, Channel>`, embedded as an
association list kept sorted by `Directions.rank` with unique keys
(`BTreeMap::insert` replaces the value at an existing key). -/
def dirMapInsert (d : Directions) (c : Channel) :
    List (Directions × Channel) → List (Directions × Channel)
  | [] => [(d, c)]
  | (d', c') :: rest =>
    if d.rank < d'.rank then (d, c) :: (d', c') :: rest
    else if d.rank = d'.rank then (d, c) :: rest
    else (d', c') :: dirMapInsert d c rest

/-- `channels.rs` `Channels`: a router's channels map
(`BTreeMap<Directions, Channel>`). -/
structure Channels where
  channel : List (Directions × Channel)
deriving DecidableEq, Repr

/-- `channels.rs` `Channels::deserialize_channels`: the XML channel vector
is folded into the `BTreeMap` keyed by each channel's direction. -/
def Channels.deserialize_channels (channel_vec : List Channel) : Channels :=
  ⟨channel_vec.foldl (fun ret c => dirMapInsert c.direction c ret) []⟩

/-- `channels.rs` `Channels::serialize_channels`: serialises the map's
values in key (iteration) order. -/
def Channels.serialize_channels (cs : Channels) : List Channel :=
  cs.channel.map (·.2)

/-- Zeroing one channel-map entry's `current_load`. -/
def clearChannelEntry (p : Directions × Channel) : Directions × Channel :=
  (p.1, { p.2 with current_load := 0 })

/-- `channels.rs` `Channels::clear_loads`: zeroes every channel's
`current_load`. -/
def Channels.clear_loads (cs : Channels) : Channels :=
  ⟨cs.channel.map clearChannelEntry⟩

/-! ## cores.rs: `EdgePosition`, boundary classification, `Core` -/

/-- `cores.rs` `EdgePosition`: where on the matrix edge a core sits. -/
inductive EdgePosition where
  | Top
  | TopLeft
  | TopRight
  | Left
  | Right
  | Bottom
  | BottomLeft
  | BottomRight
deriving DecidableEq, Repr

/-- `sink_source.rs` / `borders.rs` `SinkSourceDirection`. -/
inductive SinkSourceDirection where
  | North
  | South
  | East
  | West
deriving DecidableEq, Repr

/-- `cores.rs` `From<&EdgePosition> for Vec<SinkSourceDirection>`: the
permitted boundary directions of each edge position. -/
def EdgePosition.sinkSourceDirections : EdgePosition → List SinkSourceDirection
  | .Bottom => [.South]
  | .BottomLeft => [.South, .West]
  | .BottomRight => [.South, .East]
  | .Left => [.West]
  | .Right => [.East]
  | .Top => [.North]
  | .TopLeft => [.North, .West]
  | .TopRight => [.North, .East]

/-- `cores.rs` `Core::calculate_edge`: determines whether a core is on the
mesh edge and, if so, where.  Arguments in source order: `(id, columns,
rows)`. -/
def Core.calculate_edge (id columns rows : Nat) : Option EdgePosition :=
  let bl_bound := (rows - 1) * columns
  if id % columns = 0 then
    if id = 0 then some .TopLeft
    else if id = bl_bound then some .BottomLeft
    else some .Left
  else if (id + 1) % columns = 0 then
    if id = columns - 1 then some .TopRight
    else if id = rows * columns - 1 then some .BottomRight
    else some .Right
  else if id < columns then some .Top
  else if bl_bound < id then some .Bottom
  else none

/-- The permitted boundary directions of core `id` on an `R×C` mesh: the
`Vec<SinkSourceDirection>` conversion of its computed `EdgePosition`
(empty for interior cores). -/
def permittedDirections (id columns rows : Nat) : List SinkSourceDirection :=
  match Core.calculate_edge id columns rows with
  | some p => p.sinkSourceDirections
  | none => []

/-! ## routing.rs: the dimension-order routing engine

`routing.rs` works on the `connections: HashMap<usize, Neighbours>` matrix
built by `lib.rs::parse_file` (top neighbour of `i` is `i - columns`,
bottom is `i + columns`, left `i - 1`, right `i + 1`).  The `HashMap` is
embedded as an association list; `get_mut` followed by in-place mutation is
embedded as lookup plus first-match replacement. -/

/-- `routing.rs` `Neighbour`: neighbour core id plus accumulated
`link_cost` (`u8`). -/
structure Neighbour where
  id : Nat
  link_cost : Nat
deriving DecidableEq, Repr

/-- `routing.rs` `Neighbour::add_to_cost`: `self.link_cost += cost;`
(`u8` addition, wraps modulo `2^8` in release builds). -/
def Neighbour.add_to_cost (n : Neighbour) (cost : Nat) : Neighbour :=
  { n with link_cost := (n.link_cost + cost) % U8_MOD }

/-- `routing.rs` `Neighbours`: the four optional neighbours of a core. -/
structure Neighbours where
  top : Option Neighbour
  right : Option Neighbour
  bottom : Option Neighbour
  left : Option Neighbour
deriving DecidableEq, Repr

/-- `routing.rs` `Neighbours::clear_link_costs`: zeroes every present
neighbour's `link_cost`. -/
def Neighbours.clear_link_costs (ns : Neighbours) : Neighbours :=
  { top := ns.top.map fun n => { n with link_cost := 0 }
    right := ns.right.map fun n => { n with link_cost := 0 }
    bottom := ns.bottom.map fun n => { n with link_cost := 0 }
    left := ns.left.map fun n => { n with link_cost := 0 } }

/-- The four neighbour selectors passed to `update_connection`
(`&Neighbours::top_mut`, `right_mut`, `bottom_mut`, `left_mut`). -/
inductive NeighbourSelector where
  | top
  | right
  | bottom
  | left
deriving DecidableEq, Repr

/-- Reading through a neighbour selector. -/
def Neighbours.sel (ns : Neighbours) : NeighbourSelector → Option Neighbour
  | .top => ns.top
  | .right => ns.right
  | .bottom => ns.bottom
  | .left => ns.left

/-- Writing through a neighbour selector. -/
def Neighbours.setSel (ns : Neighbours) (s : NeighbourSelector)
    (v : Option Neighbour) : Neighbours :=
  match s with
  | .top => { ns with top := v }
  | .right => { ns with right := v }
  | .bottom => { ns with bottom := v }
  | .left => { ns with left := v }

/-- `fifos.rs` `FIFODirection` (used by the routing report). -/
inductive FIFODirection where
  | NorthInput
  | NorthOutput
  | SouthInput
  | SouthOutput
  | EastInput
  | EastOutput
  | WestInput
  | WestOutput
  | LocalInput
  | LocalOutput
deriving DecidableEq, Repr

/-- `graph.rs` `Edge`: a task-graph arc.  The Rust fields are `from`, `to`
and `communication_cost`; `from` is a Lean keyword, hence the underscores. -/
structure Edge where
  from_ : Nat
  to_ : Nat
  communication_cost : Nat
deriving DecidableEq, Repr

/-- `routing.rs` `EdgeRoutingInformation` (all fields `u8` in Rust). -/
structure EdgeRoutingInformation where
  start_id : Nat
  start_column : Nat
  destination_id : Nat
  current_column : Nat
  current_row : Nat
  destination_column : Nat
  destination_row : Nat
  communication_cost : Nat
deriving DecidableEq, Repr

/-- `routing.rs` `ConnectionUpdateError`. -/
inductive ConnectionUpdateError where
  | mk
deriving DecidableEq, Repr

/-- First-match lookup in an association list (models `HashMap::get`). -/
def alookup {α : Type} (m : List (Nat × α)) (k : Nat) : Option α :=
  match m with
  | [] => none
  | p :: rest => if p.1 = k then some p.2 else alookup rest k

/-- First-match replacement in an association list (models mutation through
`HashMap::get_mut`). -/
def aupdate {α : Type} (k : Nat) (v : α) : List (Nat × α) → List (Nat × α)
  | [] => []
  | p :: rest => if p.1 = k then (p.1, v) :: rest else p :: aupdate k v rest

/-- The old-generation `Core` as read by `routing.rs`: the engine reads
only `core.id()` from the cores list, so only the id field is embedded. -/
structure OldCore where
  id : Nat
deriving DecidableEq, Repr

/-- The fields of the old-generation `lib.rs` `ManycoreSystem` that the
routing engine destructures (`cores`, `columns`, `rows`, `task_graph`,
`connections`, `task_core_map`). -/
structure ManycoreSystem where
  columns : Nat
  rows : Nat
  task_graph : List Edge
  cores : List OldCore
  connections : List (Nat × Neighbours)
  task_core_map : List (Nat × Nat)
deriving DecidableEq, Repr

/-- `routing.rs` `task_id_to_core_id`: looks the task up in the
task-to-core map, `ConnectionUpdateError` if absent. -/
def ManycoreSystem.task_id_to_core_id (task_core_map : List (Nat × Nat))
    (task_id : Nat) : Except ConnectionUpdateError Nat :=
  match alookup task_core_map task_id with
  | some core_id => .ok core_id
  | none => .error .mk

/-- `routing.rs` `calculate_edge_routing_information`.  Note the source
computes the row coordinates as `start_id / rows` and
`destination_id / rows` (dividing by the row count), while the column
coordinates use `% columns`.  Rust's `cores.list()[idx]` panics when the
index is out of bounds; no claim distinguishes a panic from an error
abort, so that (otherwise unreachable) case is embedded as the error. -/
def calculate_edge_routing_information (cores : List OldCore)
    (task_core_map : List (Nat × Nat)) (edge : Edge) (columns rows : Nat) :
    Except ConnectionUpdateError EdgeRoutingInformation := do
  let start_idx ← ManycoreSystem.task_id_to_core_id task_core_map edge.from_
  let dest_idx ← ManycoreSystem.task_id_to_core_id task_core_map edge.to_
  let start ← match cores.get? start_idx with
    | some c => .ok c
    | none => .error ConnectionUpdateError.mk
  let destination ← match cores.get? dest_idx with
    | some c => .ok c
    | none => .error ConnectionUpdateError.mk
  let start_id := start.id
  let destination_id := destination.id
  .ok { start_id
        start_column := start_id % columns
        destination_id
        current_column := start_id % columns
        current_row := start_id / rows
        destination_column := destination_id % columns
        destination_row := destination_id / rows
        communication_cost := edge.communication_cost }

/-- `routing.rs` `update_neighbour`: adds `cost` to the selected neighbour,
failing with `ConnectionUpdateError` when the neighbour is absent.  Returns
the updated neighbour together with the updated `Neighbours` (the Rust
original mutates through a `&mut` borrow). -/
def update_neighbour (ns : Neighbours) (cost : Nat) (sel : NeighbourSelector) :
    Except ConnectionUpdateError (Neighbour × Neighbours) :=
  match ns.sel sel with
  | none => .error .mk
  | some n =>
    let n' := n.add_to_cost cost
    .ok (n', ns.setSel sel (some n'))

/-- `routing.rs` `update_connection`: updates the selected neighbour's cost
and steps `delta_target` by one (up when `positive_delta`).  Returns the
neighbour's id, the new delta target and the updated `Neighbours`. -/
def update_connection (ns : Neighbours) (cost delta_target : Nat)
    (positive_delta : Bool) (sel : NeighbourSelector) :
    Except ConnectionUpdateError (Nat × Nat × Neighbours) := do
  let (n, ns') ← update_neighbour ns cost sel
  let delta' := if positive_delta then delta_target + 1 else delta_target - 1
  .ok (n.id, delta', ns')

/-- The routing report `HashMap<usize, Vec<FIFODirection>>`, embedded as an
association list in first-insertion order. -/
def Report : Type := List (Nat × List FIFODirection)

instance : DecidableEq Report := by
  unfold Report
  infer_instance

/-- `ret.entry(idx).or_insert(Vec::new()).push(d)`. -/
def reportPush (ret : Report) (idx : Nat) (d : FIFODirection) : Report :=
  match ret with
  | [] => [(idx, [d])]
  | p :: rest =>
    if p.1 = idx then (p.1, p.2 ++ [d]) :: rest
    else p :: reportPush rest idx d

/-- `|a - b|` on naturals. -/
def natDist (a b : Nat) : Nat := (a - b) + (b - a)

/-- The iteration count of a routing walk: the `loop` in
`row_first`/`column_first` runs exactly one iteration per unit of row and
column delta plus a final iteration that observes the break condition, so
this fuel is provably sufficient; the fuel-exhaustion branch below is
unreachable when the loop is entered through `row_first`/`column_first`. -/
def edgeFuel (eri : EdgeRoutingInformation) : Nat :=
  natDist eri.current_row eri.destination_row +
    natDist eri.current_column eri.destination_column + 1

/-- The body of `row_first`'s `loop`: rows are resolved first (North when
`start_id > destination_id`, South otherwise), then columns (West when
`start_column > destination_column`, East otherwise), then break. -/
def rowFirstLoop (fuel : Nat) (eri : EdgeRoutingInformation)
    (current_idx : Nat) (connections : List (Nat × Neighbours))
    (ret : Report) :
    Except ConnectionUpdateError (List (Nat × Neighbours) × Report) :=
  match fuel with
  | 0 => .error .mk
  | fuel + 1 =>
    match alookup connections current_idx with
    | none => .error .mk
    | some neighbours =>
      if eri.destination_row ≠ eri.current_row then
        if eri.start_id > eri.destination_id then
          let ret' := reportPush ret current_idx .NorthOutput
          match update_connection neighbours eri.communication_cost
              eri.current_row false .top with
          | .error e => .error e
          | .ok (next_idx, row', ns') =>
            rowFirstLoop fuel { eri with current_row := row' } next_idx
              (aupdate current_idx ns' connections) ret'
        else
          let ret' := reportPush ret current_idx .SouthOutput
          match update_connection neighbours eri.communication_cost
              eri.current_row true .bottom with
          | .error e => .error e
          | .ok (next_idx, row', ns') =>
            rowFirstLoop fuel { eri with current_row := row' } next_idx
              (aupdate current_idx ns' connections) ret'
      else if eri.destination_column ≠ eri.current_column then
        if eri.start_column > eri.destination_column then
          let ret' := reportPush ret current_idx .WestOutput
          match update_connection neighbours eri.communication_cost
              eri.current_column false .left with
          | .error e => .error e
          | .ok (next_idx, col', ns') =>
            rowFirstLoop fuel { eri with current_column := col' } next_idx
              (aupdate current_idx ns' connections) ret'
        else
          let ret' := reportPush ret current_idx .EastOutput
          match update_connection neighbours eri.communication_cost
              eri.current_column true .right with
          | .error e => .error e
          | .ok (next_idx, col', ns') =>
            rowFirstLoop fuel { eri with current_column := col' } next_idx
              (aupdate current_idx ns' connections) ret'
      else
        .ok (connections, ret)

/-- The body of `column_first`'s `loop`: identical to `rowFirstLoop` but
columns are resolved before rows. -/
def columnFirstLoop (fuel : Nat) (eri : EdgeRoutingInformation)
    (current_idx : Nat) (connections : List (Nat × Neighbours))
    (ret : Report) :
    Except ConnectionUpdateError (List (Nat × Neighbours) × Report) :=
  match fuel with
  | 0 => .error .mk
  | fuel + 1 =>
    match alookup connections current_idx with
    | none => .error .mk
    | some neighbours =>
      if eri.destination_column ≠ eri.current_column then
        if eri.start_column > eri.destination_column then
          let ret' := reportPush ret current_idx .WestOutput
          match update_connection neighbours eri.communication_cost
              eri.current_column false .left with
          | .error e => .error e
          | .ok (next_idx, col', ns') =>
            columnFirstLoop fuel { eri with current_column := col' } next_idx
              (aupdate current_idx ns' connections) ret'
        else
          let ret' := reportPush ret current_idx .EastOutput
          match update_connection neighbours eri.communication_cost
              eri.current_column true .right with
          | .error e => .error e
          | .ok (next_idx, col', ns') =>
            columnFirstLoop fuel { eri with current_column := col' } next_idx
              (aupdate current_idx ns' connections) ret'
      else if eri.destination_row ≠ eri.current_row then
        if eri.start_id > eri.destination_id then
          let ret' := reportPush ret current_idx .NorthOutput
          match update_connection neighbours eri.communication_cost
              eri.current_row false .top with
          | .error e => .error e
          | .ok (next_idx, row', ns') =>
            columnFirstLoop fuel { eri with current_row := row' } next_idx
              (aupdate current_idx ns' connections) ret'
        else
          let ret' := reportPush ret current_idx .SouthOutput
          match update_connection neighbours eri.communication_cost
              eri.current_row true .bottom with
          | .error e => .error e
          | .ok (next_idx, row', ns') =>
            columnFirstLoop fuel { eri with current_row := row' } next_idx
              (aupdate current_idx ns' connections) ret'
      else
        .ok (connections, ret)

/-- The per-edge iteration of `row_first` (`for edge in task_graph.edges()`),
threading the connections matrix and the report. -/
def rowFirstGo (cores : List OldCore) (task_core_map : List (Nat × Nat))
    (columns rows : Nat) (connections : List (Nat × Neighbours))
    (ret : Report) :
    List Edge → Except ConnectionUpdateError (List (Nat × Neighbours) × Report)
  | [] => .ok (connections, ret)
  | edge :: rest =>
    match calculate_edge_routing_information cores task_core_map edge
        columns rows with
    | .error e => .error e
    | .ok eri =>
      match rowFirstLoop (edgeFuel eri) eri eri.start_id connections ret with
      | .error e => .error e
      | .ok (connections', ret') =>
        rowFirstGo cores task_core_map columns rows connections' ret' rest

/-- The per-edge iteration of `column_first`. -/
def columnFirstGo (cores : List OldCore) (task_core_map : List (Nat × Nat))
    (columns rows : Nat) (connections : List (Nat × Neighbours))
    (ret : Report) :
    List Edge → Except ConnectionUpdateError (List (Nat × Neighbours) × Report)
  | [] => .ok (connections, ret)
  | edge :: rest =>
    match calculate_edge_routing_information cores task_core_map edge
        columns rows with
    | .error e => .error e
    | .ok eri =>
      match columnFirstLoop (edgeFuel eri) eri eri.start_id connections
          ret with
      | .error e => .error e
      | .ok (connections', ret') =>
        columnFirstGo cores task_core_map columns rows connections' ret' rest

/-- `routing.rs` `row_first`: routes every task-graph edge row-first. -/
def ManycoreSystem.row_first (m : ManycoreSystem) :
    Except ConnectionUpdateError (List (Nat × Neighbours) × Report) :=
  rowFirstGo m.cores m.task_core_map m.columns m.rows m.connections []
    m.task_graph

/-- `routing.rs` `column_first`. -/
def ManycoreSystem.column_first (m : ManycoreSystem) :
    Except ConnectionUpdateError (List (Nat × Neighbours) × Report) :=
  columnFirstGo m.cores m.task_core_map m.columns m.rows m.connections []
    m.task_graph

/-- `routing.rs` `clear_links` applied to the connections map: zeroes every
link cost of every entry. -/
def clearConnections (c : List (Nat × Neighbours)) : List (Nat × Neighbours) :=
  c.map (fun p => (p.1, p.2.clear_link_costs))

/-- `routing.rs` `RoutingAlgorithms`. -/
inductive RoutingAlgorithms where
  | Observed
  | RowFirst
  | ColumnFirst
deriving DecidableEq, Repr

/-- `routing.rs` `task_graph_route`: clears all link costs, then routes the
task graph with the requested algorithm (`ColumnFirst` dispatches to
`column_first`, everything else — including `Observed` — to `row_first`).
Returns the report together with the final connections matrix; the Rust
original leaves that matrix in `self.connections`. -/
def ManycoreSystem.task_graph_route (m : ManycoreSystem)
    (algorithm : RoutingAlgorithms) :
    Except ConnectionUpdateError (List (Nat × Neighbours) × Report) :=
  let cleared := { m with connections := clearConnections m.connections }
  match algorithm with
  | .ColumnFirst => cleared.column_first
  | _ => cleared.row_first

/-! ## error.rs: the error taxonomy -/

/-- `error.rs` `ManycoreErrorKind` (the `InfoError` payload is a static
string in Rust; both are embedded as `String`). -/
inductive ManycoreErrorKind where
  | InfoError (reason : String)
  | GenerationError (reason : String)
  | RoutingError (reason : String)
deriving DecidableEq, Repr

/-- `error.rs` `ManycoreError`. -/
structure ManycoreError where
  error_kind : ManycoreErrorKind
deriving DecidableEq, Repr

/-- The `routing_error` helper used throughout the newer modules. -/
def routing_error (reason : String) : ManycoreError :=
  ⟨.RoutingError reason⟩

/-- Whether an error is of the `RoutingError` kind. -/
def ManycoreError.isRoutingError (e : ManycoreError) : Bool :=
  match e.error_kind with
  | .RoutingError _ => true
  | _ => false

/-! ## cores.rs (newer generation): `Router`, `Core`, source loads -/

/-- `router.rs` `Router`. -/
structure Router where
  id : Nat
  other_attributes : Option (List (String × String)) := none
deriving DecidableEq, Repr

/-- Saturating-insert into a core's `source_loads`
(`BTreeMap<Directions, u16>`, embedded as a rank-sorted association list):
`entry(direction).and_modify(|l| *l = l.saturating_add(load)).or_insert(load)`. -/
def sourceLoadsUpdate (d : Directions) (load : Nat) :
    List (Directions × Nat) → List (Directions × Nat)
  | [] => [(d, load)]
  | (d', l') :: rest =>
    if d.rank < d'.rank then (d, load) :: (d', l') :: rest
    else if d.rank = d'.rank then (d', min (l' + load) (U16_MOD - 1)) :: rest
    else (d', l') :: sourceLoadsUpdate d load rest

/-- `cores.rs` `Core` (newer generation). -/
structure Core where
  id : Nat
  router : Router
  allocated_task : Option Nat
  channels : Channels
  source_loads : Option (List (Directions × Nat))
  matrix_edge : Option EdgePosition
  other_attributes : Option (List (String × String)) := none
deriving DecidableEq, Repr

/-- `cores.rs` `Core::add_source_load`: fails with a `RoutingError` when
the core has no matrix-edge classification, otherwise saturating-adds the
load for the given direction into `source_loads`. -/
def Core.add_source_load (c : Core) (load : Nat) (direction : Directions) :
    Except ManycoreError Core :=
  match c.matrix_edge with
  | none => .error (routing_error
      "Malformed TaskGraph: Attempted to add load from a Source on a Core that is not on the matrix edge.")
  | some _ => .ok { c with
      source_loads := some (sourceLoadsUpdate direction load
        (c.source_loads.getD [])) }

/-- `cores.rs` `Core::clear_source_loads`. -/
def Core.clear_source_loads (c : Core) : Core :=
  { c with source_loads := none }

/-! ## channels.rs `Channels::add_to_cost` -/

/-- First-match lookup of a channel-map entry by direction (models
`BTreeMap::get`/`get_mut` on the channels map). -/
def channelFind? (d : Directions) :
    List (Directions × Channel) → Option (Directions × Channel)
  | [] => none
  | p :: rest => if p.1 = d then some p else channelFind? d rest

/-- `channels.rs` `Channels::add_to_cost`: adds to the channel at the given
direction, failing with a `RoutingError` when that direction has no
channel.  The addition is again a plain (wrapping) `u16` `+=`. -/
def Channels.add_to_cost (cs : Channels) (cost : Nat) (direction : Directions) :
    Except ManycoreError Channels :=
  match channelFind? direction cs.channel with
  | none => .error (routing_error "Missing channels for direction.")
  | some _ => .ok ⟨cs.channel.map (fun p =>
      if p.1 = direction then (p.1, p.2.add_to_cost cost) else p)⟩

/-! ## borders.rs: sinks, sources and the core-border index -/

/-- `borders.rs` `BorderEntry`. -/
inductive BorderEntry where
  | Source (task_id : Nat)
  | Sink (task_id : Nat)
deriving DecidableEq, Repr

/-- `borders/sink.rs` `Sink`. -/
structure Sink where
  core_id : Nat
  direction : SinkSourceDirection
  task_id : Nat
deriving DecidableEq, Repr

/-- `borders/source.rs` `Source`. -/
structure Source where
  core_id : Nat
  direction : SinkSourceDirection
  task_id : Nat
  current_load : Nat := 0
deriving DecidableEq, Repr

/-- `HashMap::insert` on an association list: replaces the value at an
existing key in place, otherwise appends. -/
def hmInsert {κ α : Type} [DecidableEq κ] (k : κ) (v : α) :
    List (κ × α) → List (κ × α)
  | [] => [(k, v)]
  | (k', v') :: rest =>
    if k' = k then (k', v) :: rest else (k', v') :: hmInsert k v rest

/-- `HashMap::get` on an association list. -/
def hmLookup {κ α : Type} [DecidableEq κ] (k : κ) (m : List (κ × α)) :
    Option α :=
  match m with
  | [] => none
  | p :: rest => if p.1 = k then some p.2 else hmLookup k rest

/-- `borders.rs` `Borders`: sources and sinks are `BTreeMap<u16, _>` keyed
by task id (embedded as association lists in ascending-key iteration
order); `core_border_map` is the derived
`HashMap<usize, HashMap<SinkSourceDirection, BorderEntry>>`. -/
structure Borders where
  sources : List (Nat × Source)
  sinks : List (Nat × Sink)
  core_border_map : List (Nat × List (SinkSourceDirection × BorderEntry))
deriving DecidableEq, Repr

/-- One step of `compute_core_border_map`:
`core_border_map.entry(core_id).or_insert(HashMap::new()).insert(direction, entry)`. -/
def borderMapInsert (core_id : Nat) (d : SinkSourceDirection) (e : BorderEntry)
    (m : List (Nat × List (SinkSourceDirection × BorderEntry))) :
    List (Nat × List (SinkSourceDirection × BorderEntry)) :=
  hmInsert core_id (hmInsert d e ((hmLookup core_id m).getD [])) m

/-- Iterated `borderMapInsert` over a list of border elements, given
projections for the owning core, the direction, and the produced entry. -/
def borderEntriesFold {α : Type} (coreOf : α → Nat)
    (dirOf : α → SinkSourceDirection) (entryOf : α → BorderEntry)
    (m : List (Nat × List (SinkSourceDirection × BorderEntry))) :
    List α → List (Nat × List (SinkSourceDirection × BorderEntry))
  | [] => m
  | x :: xs =>
    borderEntriesFold coreOf dirOf entryOf
      (borderMapInsert (coreOf x) (dirOf x) (entryOf x) m) xs

/-- `borders.rs` `Borders::compute_core_border_map`: inserts an entry for
every source (in map iteration order), then for every sink. -/
def Borders.compute_core_border_map (b : Borders) : Borders :=
  let afterSources := borderEntriesFold (fun p => p.2.core_id)
    (fun p => p.2.direction) (fun p => .Source p.2.task_id)
    b.core_border_map b.sources
  let afterSinks := borderEntriesFold (fun p => p.2.core_id)
    (fun p => p.2.direction) (fun p => .Sink p.2.task_id)
    afterSources b.sinks
  { b with core_border_map := afterSinks }

/-- Lookup into a raw core-border index. -/
def borderMapLookup
    (m : List (Nat × List (SinkSourceDirection × BorderEntry)))
    (core_id : Nat) (d : SinkSourceDirection) : Option BorderEntry :=
  (hmLookup core_id m).bind (hmLookup d)

/-- Lookup into the computed core-border index of a `Borders` value. -/
def Borders.borderLookup (b : Borders) (core_id : Nat)
    (d : SinkSourceDirection) : Option BorderEntry :=
  borderMapLookup b.core_border_map core_id d

/-- The last element of a list satisfying a predicate (later map inserts
overwrite earlier ones, so lookups see the last matching insertion). -/
def lastMatch {α : Type} (p : α → Bool) : List α → Option α
  | [] => none
  | x :: xs =>
    match lastMatch p xs with
    | some y => some y
    | none => if p x then some x else none

/-! ## The newer-generation routing entry point, modelled from the spec

The newer routing engine (`route(policy)`, endpoint resolution over cores,
sinks and sources, and the observed replay over channels) is exercised by
`tests/routing.rs` and consumes the `Borders`/`Channels`/`Core`
declarations above, but its own implementation file is absent from the
source tree; the definitions in this section are modelled from the spec
(§4.3) and marked as such. -/

/-- `borders.rs` `From<&SinkSourceDirection> for Directions`. -/
def SinkSourceDirection.toDirections : SinkSourceDirection → Directions
  | .North => .North
  | .South => .South
  | .West => .West
  | .East => .East

/-- Modelled from the spec: the validated topology object the newer
routing entry point operates on (rows, columns, core list, borders, task
graph, task-to-core index); its `ManycoreSystem` declaration is absent
from the source tree. -/
structure RoutedSystem where
  columns : Nat
  rows : Nat
  cores : List Core
  borders : Borders
  task_graph : List Edge
  task_core_map : List (Nat × Nat)
deriving DecidableEq, Repr

/-- Modelled from the spec: endpoint resolution for a task id (the
implementation is absent from the source tree).  Spec §4.3: first the
task-to-core index, else a sink with that task id, else a source with that
task id, else a RoutingError ("task not allocated on any core, sink, or
source"). -/
def RoutedSystem.task_id_to_endpoint (sys : RoutedSystem) (task_id : Nat) :
    Except ManycoreError (Nat × Option SinkSourceDirection) :=
  match alookup sys.task_core_map task_id with
  | some core_id => .ok (core_id, none)
  | none =>
    match alookup sys.borders.sinks task_id with
    | some sink => .ok (sink.core_id, some sink.direction)
    | none =>
      match alookup sys.borders.sources task_id with
      | some source => .ok (source.core_id, some source.direction)
      | none => .error (routing_error
          "Task is not allocated on any core, sink, or source.")

/-- A used-channel event of the newer routing report: an on-mesh output
channel, a boundary source channel, or the sink channel at a walk's
destination. -/
inductive RouteEvent where
  | output (core_id : Nat) (direction : Directions)
  | sourceChannel (core_id : Nat) (direction : Directions)
  | sinkChannel (core_id : Nat) (direction : Directions)
deriving DecidableEq, Repr

/-- Adds `cost` to the channel in direction `d` of the core at index
`idx`, failing with a RoutingError when the core or the channel is
missing (spec §4.3 failure semantics). -/
def updateCoreChannel (cores : List Core) (idx cost : Nat) (d : Directions) :
    Except ManycoreError (List Core) :=
  match cores.get? idx with
  | none => .error (routing_error "Core id out of range.")
  | some core =>
    match core.channels.add_to_cost cost d with
    | .error e => .error e
    | .ok chs => .ok (cores.set idx { core with channels := chs })

/-- Modelled from the spec: one dimension-order walk (spec §4.3).  Rows
and columns are derived as `row = id / C`, `col = id % C`; when
`rowFirstOrder` the row delta is resolved before the column delta,
otherwise after.  Each hop adds the edge cost to the channel of the
current core in the direction of travel, records an output event, and
moves by `±C` (vertical) or `±1` (horizontal) in id space. -/
def specWalkLoop (fuel : Nat) (rowFirstOrder : Bool)
    (columns start_row start_col dest_row dest_col cost : Nat)
    (current_id current_row current_col : Nat) (cores : List Core)
    (events : List RouteEvent) :
    Except ManycoreError (List Core × List RouteEvent) :=
  match fuel with
  | 0 => .error (routing_error "Route does not converge.")
  | fuel + 1 =>
    if current_row ≠ dest_row ∧ (rowFirstOrder ∨ ¬current_col ≠ dest_col) then
      if start_row > dest_row then
        match updateCoreChannel cores current_id cost .North with
        | .error e => .error e
        | .ok cores' =>
          specWalkLoop fuel rowFirstOrder columns start_row start_col dest_row
            dest_col cost (current_id - columns) (current_row - 1) current_col
            cores' (events ++ [.output current_id .North])
      else
        match updateCoreChannel cores current_id cost .South with
        | .error e => .error e
        | .ok cores' =>
          specWalkLoop fuel rowFirstOrder columns start_row start_col dest_row
            dest_col cost (current_id + columns) (current_row + 1) current_col
            cores' (events ++ [.output current_id .South])
    else if current_col ≠ dest_col then
      if start_col > dest_col then
        match updateCoreChannel cores current_id cost .West with
        | .error e => .error e
        | .ok cores' =>
          specWalkLoop fuel rowFirstOrder columns start_row start_col dest_row
            dest_col cost (current_id - 1) current_row (current_col - 1)
            cores' (events ++ [.output current_id .West])
      else
        match updateCoreChannel cores current_id cost .East with
        | .error e => .error e
        | .ok cores' =>
          specWalkLoop fuel rowFirstOrder columns start_row start_col dest_row
            dest_col cost (current_id + 1) current_row (current_col + 1)
            cores' (events ++ [.output current_id .East])
    else
      .ok (cores, events)

/-- Modelled from the spec: if the resolved `from` endpoint carries a
source direction, the edge cost is added to the start core's
`source_loads` and a source-channel event recorded (spec §4.3). -/
def accountSourceLoad (cores : List Core) (events : List RouteEvent)
    (start_core cost : Nat) (from_dir : Option SinkSourceDirection) :
    Except ManycoreError (List Core × List RouteEvent) :=
  match from_dir with
  | none => .ok (cores, events)
  | some d =>
    match cores.get? start_core with
    | none => .error (routing_error "Core id out of range.")
    | some core =>
      match core.add_source_load cost d.toDirections with
      | .error e => .error e
      | .ok core' =>
        .ok (cores.set start_core core',
          events ++ [.sourceChannel start_core d.toDirections])

/-- Modelled from the spec: if the resolved `to` endpoint carries a sink
direction, the edge cost is added to the destination core's channel in
that direction and a sink-channel event recorded (spec §4.3). -/
def accountSinkChannel (cores : List Core) (events : List RouteEvent)
    (dest_core cost : Nat) (to_dir : Option SinkSourceDirection) :
    Except ManycoreError (List Core × List RouteEvent) :=
  match to_dir with
  | none => .ok (cores, events)
  | some d =>
    match updateCoreChannel cores dest_core cost d.toDirections with
    | .error e => .error e
    | .ok cores' =>
      .ok (cores', events ++ [.sinkChannel dest_core d.toDirections])

/-- Modelled from the spec: routing of one task-graph edge under a
dimension-order policy (spec §4.3): resolve both endpoints, account a
source direction into the start core's `source_loads`, walk, then account
a sink direction into the destination core's channel. -/
def routeOneEdge (sys : RoutedSystem) (rowFirstOrder : Bool)
    (acc : List Core × List RouteEvent) (edge : Edge) :
    Except ManycoreError (List Core × List RouteEvent) :=
  match sys.task_id_to_endpoint edge.from_ with
  | .error e => .error e
  | .ok (start_core, from_dir) =>
    match sys.task_id_to_endpoint edge.to_ with
    | .error e => .error e
    | .ok (dest_core, to_dir) =>
      match accountSourceLoad acc.1 acc.2 start_core
          edge.communication_cost from_dir with
      | .error e => .error e
      | .ok (cores, events) =>
        match specWalkLoop
            (natDist (start_core / sys.columns) (dest_core / sys.columns) +
              natDist (start_core % sys.columns) (dest_core % sys.columns) +
              1)
            rowFirstOrder sys.columns (start_core / sys.columns)
            (start_core % sys.columns) (dest_core / sys.columns)
            (dest_core % sys.columns) edge.communication_cost start_core
            (start_core / sys.columns) (start_core % sys.columns) cores
            events with
        | .error e => .error e
        | .ok (cores', events') =>
          accountSinkChannel cores' events' dest_core
            edge.communication_cost to_dir

/-- The per-edge iteration of the modelled dimension-order routing pass. -/
def routeGo (sys : RoutedSystem) (rowFirstOrder : Bool) (cores : List Core)
    (events : List RouteEvent) :
    List Edge → Except ManycoreError (List Core × List RouteEvent)
  | [] => .ok (cores, events)
  | edge :: rest =>
    match routeOneEdge sys rowFirstOrder (cores, events) edge with
    | .error e => .error e
    | .ok (cores', events') => routeGo sys rowFirstOrder cores' events' rest

/-- The reset of one core: channel loads and boundary source loads. -/
def clearCoreLoads (c : Core) : Core :=
  { c.clear_source_loads with channels := c.channels.clear_loads }

/-- Modelled from the spec: the idempotent reset at the start of every
routing pass — every channel load and every boundary source load is
cleared (spec §4.3). -/
def clearAllLoads (cores : List Core) : List Core :=
  cores.map clearCoreLoads

/-- The observed replay applied to one (already reset) channel-map entry:
a non-zero baseline `actual_com_cost` is added to `current_load`. -/
def observedChannelUpdate (p : Directions × Channel) :
    Directions × Channel :=
  if p.2.actual_com_cost ≠ 0 then (p.1, p.2.add_to_cost p.2.actual_com_cost)
  else p

/-- The observed replay applied to one (already reset) core. -/
def observedCoreUpdate (core : Core) : Core :=
  { core with channels := ⟨core.channels.channel.map observedChannelUpdate⟩ }

/-- The used-pair report entries contributed by core `j`. -/
def observedReportEntries (cores : List Core) (j : Nat) :
    List (Nat × Directions) :=
  match cores.get? j with
  | some core =>
    (core.channels.channel.filter (fun p => p.2.actual_com_cost ≠ 0)).map
      (fun p => (j, p.1))
  | none => []

/-- Modelled from the spec: the observed replay policy over channels
(spec §4.3), absent from the source tree — no geometric path is computed;
after the reset, every channel whose baseline `actual_com_cost` is
non-zero has that baseline added to its `current_load` and the
core/direction pair recorded as used.  Returns the used-pair report and
the updated cores. -/
def observed_route_model (cores : List Core) :
    List (Nat × Directions) × List Core :=
  ((List.range cores.length).flatMap (observedReportEntries cores),
   (clearAllLoads cores).map observedCoreUpdate)

/-- Modelled from the spec: the newer routing entry point
`route(policy)` (spec §4.3), absent from the source tree.  Every call
first clears all channel loads and boundary source loads, then recomputes
from the task graph (dimension-order policies) or replays the observed
baselines. -/
def RoutedSystem.route (sys : RoutedSystem) (algorithm : RoutingAlgorithms) :
    Except ManycoreError (List RouteEvent × RoutedSystem) :=
  match algorithm with
  | .Observed =>
    let (report, cores') := observed_route_model sys.cores
    .ok (report.map (fun p => .output p.1 p.2), { sys with cores := cores' })
  | .RowFirst =>
    match routeGo sys true (clearAllLoads sys.cores) [] sys.task_graph with
    | .error e => .error e
    | .ok (cores', events) => .ok (events, { sys with cores := cores' })
  | .ColumnFirst =>
    match routeGo sys false (clearAllLoads sys.cores) [] sys.task_graph with
    | .error e => .error e
    | .ok (cores', events) => .ok (events, { sys with cores := cores' })

/-- Channel lookup helper: the channel of core `i` in direction `d`. -/
def coreChannelEntry (cores : List Core) (i : Nat) (d : Directions) :
    Option Channel :=
  (cores.get? i).bind
    (fun c => (channelFind? d c.channels.channel).map (·.2))

/-- Well-formedness of a core list as produced by deserialisation: channel
map keys are unique, and every `u16` baseline is in range. -/
def CoresWF (cores : List Core) : Prop :=
  ∀ c ∈ cores, (c.channels.channel.map (·.1)).Nodup ∧
    ∀ p ∈ c.channels.channel, p.2.actual_com_cost < U16_MOD

/-- Whether a routing result is an aborted pass carrying a
`RoutingError` (no report produced). -/
def failsWithRoutingError {α : Type} (x : Except ManycoreError α) : Bool :=
  match x with
  | .error e => e.isRoutingError
  | .ok _ => false

/-! ## Concrete example systems used by witnesses and counterexamples -/

/-- The `connections` matrix `lib.rs::parse_file` builds for a 3-column,
2-row mesh (ids 0–5): top neighbour `i - columns`, bottom `i + columns`,
left `i - 1`, right `i + 1`, present only when they stay on the grid. -/
def connections3x2 : List (Nat × Neighbours) :=
  [(0, ⟨none, some ⟨1, 0⟩, some ⟨3, 0⟩, none⟩),
   (1, ⟨none, some ⟨2, 0⟩, some ⟨4, 0⟩, some ⟨0, 0⟩⟩),
   (2, ⟨none, none, some ⟨5, 0⟩, some ⟨1, 0⟩⟩),
   (3, ⟨some ⟨0, 0⟩, some ⟨4, 0⟩, none, none⟩),
   (4, ⟨some ⟨1, 0⟩, some ⟨5, 0⟩, none, some ⟨3, 0⟩⟩),
   (5, ⟨some ⟨2, 0⟩, none, none, some ⟨4, 0⟩⟩)]

/-- A 2-row × 3-column system (columns = 3, rows = 2) whose task graph has
one edge of cost 5 from task 0 (allocated on core 2) to task 1 (allocated
on core 0). -/
def system3x2 : ManycoreSystem :=
  { columns := 3
    rows := 2
    task_graph := [{ from_ := 0, to_ := 1, communication_cost := 5 }]
    cores := [⟨0⟩, ⟨1⟩, ⟨2⟩, ⟨3⟩, ⟨4⟩, ⟨5⟩]
    connections := connections3x2
    task_core_map := [(0, 2), (1, 0)] }

/-- The `connections` matrix `lib.rs::parse_file` builds for a 2×2 mesh. -/
def connections2x2 : List (Nat × Neighbours) :=
  [(0, ⟨none, some ⟨1, 0⟩, some ⟨2, 0⟩, none⟩),
   (1, ⟨none, none, some ⟨3, 0⟩, some ⟨0, 0⟩⟩),
   (2, ⟨some ⟨0, 0⟩, some ⟨3, 0⟩, none, none⟩),
   (3, ⟨some ⟨1, 0⟩, none, none, some ⟨2, 0⟩⟩)]

/-- A 2×2 system with one edge of cost 5 from task 0 (on core 0) to task 1
(on core 3). -/
def system2x2 : ManycoreSystem :=
  { columns := 2
    rows := 2
    task_graph := [{ from_ := 0, to_ := 1, communication_cost := 5 }]
    cores := [⟨0⟩, ⟨1⟩, ⟨2⟩, ⟨3⟩]
    connections := connections2x2
    task_core_map := [(0, 0), (1, 3)] }

/-- A `Borders` value with one source (task 5) and two sinks (tasks 1 and
2) that share core 0 and direction North. -/
def exampleBorders : Borders :=
  { sources := [(5, ⟨0, .West, 5, 0⟩)]
    sinks := [(1, ⟨0, .North, 1⟩), (2, ⟨0, .North, 2⟩)]
    core_border_map := [] }

/-- A `RoutedSystem` whose single task-graph edge references task 7,
which is allocated on no core and matches no sink and no source; task 9
is a sink's task id. -/
def exampleRoutedSystem : RoutedSystem :=
  { columns := 2
    rows := 1
    cores := []
    borders := { sources := [], sinks := [(9, ⟨0, .North, 9⟩)],
                 core_border_map := [] }
    task_graph := [{ from_ := 7, to_ := 8, communication_cost := 1 }]
    task_core_map := [] }

/-- A one-core list whose North channel has observed baseline 3 and whose
South channel has baseline 0. -/
def exampleCores : List Core :=
  [{ id := 0
     router := ⟨0, none⟩
     allocated_task := none
     channels := ⟨[(Directions.North, Channel.new .North 3 400 none),
                   (Directions.South, Channel.new .South 0 400 none)]⟩
     source_loads := none
     matrix_edge := some .TopLeft
     other_attributes := none }]

/-! # Theorems -/

/-! ## C1: the routing coordinate conversion -/

/-- C1: the claim states that the dimension-order routing engine converts a
core id to mesh coordinates as `row = id / C` (and `col = id % C`), so the
current and destination row values used by the walks should equal
`id / C`.  The source instead computes `current_row = start_id / rows`:
on the 3-column, 2-row system, core id 2 sits in row `2 / 3 = 0`, but the
engine computes `current_row = 2 / 2 = 1`.  This contradicts the mesh
geometry the rest of the code base uses (`parse_file` wires the top
neighbour as `i - columns`; `Core::calculate_edge` tests `id < columns`
for the top row), so it is a slip in the code, not in the claim. -/
theorem c1_row_divided_by_rows_not_columns :
    (calculate_edge_routing_information system3x2.cores
        system3x2.task_core_map
        { from_ := 0, to_ := 1, communication_cost := 5 } 3 2).map
      (·.current_row) = .ok 1 ∧ (2 : Nat) / 3 = 0 ∧ (1 : Nat) ≠ 2 / 3 := by
  refine ⟨rfl, rfl, by decide⟩

/-! ## C2: hop count versus Manhattan distance -/

/-- C2: the claim states that a RowFirst or ColumnFirst pass between two
on-mesh cores terminates and performs exactly the Manhattan distance
between the cores' `(row, col)` coordinates in hops, adding the edge cost
to one channel per hop.  On the 3-column, 2-row system, the edge goes from
core 2 `(row 0, col 2)` to core 0 `(row 0, col 0)`: the Manhattan distance
is 2 (two West hops).  Because the engine computes the rows as `id / rows`
(`2 / 2 = 1` versus `0 / 2 = 0`), both walks instead try to step North out
of the top row and abort with `ConnectionUpdateError` — the same
`row = id / rows` slip exhibited for C1. -/
theorem c2_row_first_aborts_on_rectangular_mesh :
    ManycoreSystem.task_graph_route system3x2 .RowFirst = .error .mk ∧
    ManycoreSystem.task_graph_route system3x2 .ColumnFirst = .error .mk ∧
    natDist (2 / 3) (0 / 3) + natDist (2 % 3) (0 % 3) = 2 := by
  refine ⟨rfl, rfl, rfl⟩

/-! ## C7: channel load accumulation -/

/-- C7 counterexample: accumulation into a channel's `current_load` is not
saturating.  Adding cost 40000 twice to a fresh channel yields
`80000 % 2^16 = 14464` (wrap-around; debug builds panic), not the
saturating sum `65535`. -/
theorem c7_channel_add_wraps_not_saturates :
    ([40000, 40000].foldl Channel.add_to_cost
        (Channel.new .North 0 0 none)).current_load = 14464 ∧
    (14464 : Nat) ≠ 65535 := by
  refine ⟨rfl, by decide⟩

/-- Helper: `U16_MOD` is positive. -/
theorem u16_mod_pos : 0 < U16_MOD := by decide

/-- C7 (amended): accumulation into a channel's `current_load` is plain
`u16` addition: for every channel (with an in-range starting load) and
every sequence of added costs, the resulting `current_load` is the sum of
the costs modulo `2^16` (wrap-around semantics of release builds; debug
builds panic on overflow), not the saturating sum. -/
theorem c7_current_load_is_wrapping_sum (c : Channel) (costs : List Nat)
    (h : c.current_load < U16_MOD) :
    (costs.foldl Channel.add_to_cost c).current_load =
      (c.current_load + costs.sum) % U16_MOD := by
  induction costs generalizing c with
  | nil => simpa using (Nat.mod_eq_of_lt h).symm
  | cons a as ih =>
    rw [List.foldl_cons, ih (c.add_to_cost a) (Nat.mod_lt _ u16_mod_pos)]
    simp only [Channel.add_to_cost, List.sum_cons, U16_MOD]
    omega

/-- C7 witness: the amended statement evaluated on a fresh channel and the
cost sequence `[40000, 40000]`. -/
theorem c7_current_load_is_wrapping_sum_witness :
    (Channel.new .North 0 0 none).current_load < U16_MOD ∧
    ([40000, 40000].foldl Channel.add_to_cost
        (Channel.new .North 0 0 none)).current_load =
      ((Channel.new .North 0 0 none).current_load +
        [40000, 40000].sum) % U16_MOD :=
  ⟨by decide, c7_current_load_is_wrapping_sum (Channel.new .North 0 0 none)
    [40000, 40000] (by decide)⟩

/-! ## C9: canonical direction order of the channels map -/

/-- Helper: members of `dirMapInsert` are the inserted pair or members of
the original list. -/
theorem mem_dirMapInsert {d : Directions} {c : Channel}
    {l : List (Directions × Channel)} {x : Directions × Channel}
    (hx : x ∈ dirMapInsert d c l) : x = (d, c) ∨ x ∈ l := by
  induction l with
  | nil => simpa [dirMapInsert] using hx
  | cons hd tl ih =>
    simp only [dirMapInsert] at hx
    split_ifs at hx with h1 h2
    · rcases List.mem_cons.mp hx with hx | hx
      · exact .inl hx
      · exact .inr hx
    · rcases List.mem_cons.mp hx with hx | hx
      · exact .inl hx
      · exact .inr (List.mem_cons_of_mem _ hx)
    · rcases List.mem_cons.mp hx with hx | hx
      · exact .inr (hx ▸ List.mem_cons_self _ _)
      · rcases ih hx with hx | hx
        · exact .inl hx
        · exact .inr (List.mem_cons_of_mem _ hx)

/-- Helper: `dirMapInsert` preserves strict sortedness by direction rank. -/
theorem dirMapInsert_pairwise {d : Directions} {c : Channel}
    {l : List (Directions × Channel)}
    (hl : l.Pairwise (fun a b => a.1.rank < b.1.rank)) :
    (dirMapInsert d c l).Pairwise (fun a b => a.1.rank < b.1.rank) := by
  induction l with
  | nil => simp [dirMapInsert]
  | cons hd tl ih =>
    rw [List.pairwise_cons] at hl
    obtain ⟨hhd, htl⟩ := hl
    simp only [dirMapInsert]
    split_ifs with h1 h2
    · exact List.Pairwise.cons
        (by
          intro y hy
          rcases List.mem_cons.mp hy with hy | hy
          · simpa [hy] using h1
          · exact h1.trans (hhd y hy))
        (List.Pairwise.cons hhd htl)
    · exact List.Pairwise.cons (fun y hy => h2 ▸ hhd y hy) htl
    · have hlt : hd.1.rank < d.rank := by omega
      exact List.Pairwise.cons
        (by
          intro y hy
          rcases mem_dirMapInsert hy with hy | hy
          · simpa [hy] using hlt
          · exact hhd y hy)
        (ih htl)

/-- Helper: the deserialisation fold preserves strict sortedness. -/
theorem foldl_dirMapInsert_pairwise (cv : List Channel)
    (m : List (Directions × Channel))
    (hm : m.Pairwise (fun a b => a.1.rank < b.1.rank)) :
    (cv.foldl (fun ret c => dirMapInsert c.direction c ret) m).Pairwise
      (fun a b => a.1.rank < b.1.rank) := by
  induction cv generalizing m with
  | nil => simpa using hm
  | cons hd tl ih => exact ih _ (dirMapInsert_pairwise hm)

/-- Helper: `dirMapInsert` preserves the invariant that every stored
channel's `direction` equals its key. -/
theorem dirMapInsert_key_inv {d : Directions} {c : Channel}
    {l : List (Directions × Channel)}
    (hl : ∀ p ∈ l, p.2.direction = p.1) (hc : c.direction = d) :
    ∀ p ∈ dirMapInsert d c l, p.2.direction = p.1 := by
  induction l with
  | nil =>
    intro p hp
    simp only [dirMapInsert, List.mem_singleton] at hp
    simp [hp, hc]
  | cons hd tl ih =>
    intro p hp
    simp only [dirMapInsert] at hp
    have hhd := hl hd (List.mem_cons_self _ _)
    have htl : ∀ p ∈ tl, p.2.direction = p.1 := fun q hq =>
      hl q (List.mem_cons_of_mem _ hq)
    split_ifs at hp with h1 h2
    · rcases List.mem_cons.mp hp with hp | hp
      · simp [hp, hc]
      · exact hl p hp
    · rcases List.mem_cons.mp hp with hp | hp
      · simp [hp, hc]
      · exact htl p hp
    · rcases List.mem_cons.mp hp with hp | hp
      · simp [hp, hhd]
      · exact ih htl p hp

/-- Helper: the deserialisation fold preserves the key invariant. -/
theorem foldl_dirMapInsert_key_inv (cv : List Channel)
    (m : List (Directions × Channel)) (hm : ∀ p ∈ m, p.2.direction = p.1) :
    ∀ p ∈ cv.foldl (fun ret c => dirMapInsert c.direction c ret) m,
      p.2.direction = p.1 := by
  induction cv generalizing m with
  | nil => simpa using hm
  | cons hd tl ih => exact ih _ (dirMapInsert_key_inv hm rfl)

/-- Helper: a strictly rank-sorted channel list mentions each direction at
most once. -/
theorem countP_le_one_of_pairwise {l : List Channel} (d : Directions)
    (hl : l.Pairwise (fun a b => a.direction.rank < b.direction.rank)) :
    l.countP (fun ch => decide (ch.direction = d)) ≤ 1 := by
  induction l with
  | nil => simp
  | cons hd tl ih =>
    rw [List.pairwise_cons] at hl
    obtain ⟨hhd, htl⟩ := hl
    rw [List.countP_cons]
    by_cases hc : hd.direction = d
    · have hz : tl.countP (fun ch => decide (ch.direction = d)) = 0 := by
        rw [List.countP_eq_zero]
        intro b hb
        have := hhd b hb
        simp only [decide_eq_true_eq]
        intro hbd
        rw [hc, hbd] at this
        omega
      simp [hz, hc]
    · simpa [hc] using ih htl

/-- C9 (amended): iterating or serialising a core's channels map presents
the channels in the fixed canonical direction order North, South, West,
East — the declaration (and hence derived `Ord`) order of `Directions` —
with each direction appearing at most once. -/
theorem c9_channels_serialised_in_canonical_order (channel_vec : List Channel) :
    (Channels.serialize_channels
        (Channels.deserialize_channels channel_vec)).Pairwise
      (fun a b => a.direction.rank < b.direction.rank) ∧
    ∀ d : Directions,
      (Channels.serialize_channels
          (Channels.deserialize_channels channel_vec)).countP
        (fun ch => decide (ch.direction = d)) ≤ 1 := by
  have hkeys :
      (Channels.deserialize_channels channel_vec).channel.Pairwise
        (fun a b => a.1.rank < b.1.rank) :=
    foldl_dirMapInsert_pairwise channel_vec [] (by simp)
  have hinv :
      ∀ p ∈ (Channels.deserialize_channels channel_vec).channel,
        p.2.direction = p.1 :=
    foldl_dirMapInsert_key_inv channel_vec [] (by simp)
  have hdir :
      (Channels.serialize_channels
          (Channels.deserialize_channels channel_vec)).Pairwise
        (fun a b => a.direction.rank < b.direction.rank) := by
    unfold Channels.serialize_channels
    rw [List.pairwise_map]
    refine hkeys.imp_of_mem ?_
    intro a b ha hb hab
    rw [hinv a ha, hinv b hb]
    exact hab
  exact ⟨hdir, fun d => countP_le_one_of_pairwise d hdir⟩

/-- C9 counterexample: the canonical serialisation order is North, South,
West, East (the `Directions` declaration order), not North, South, East,
West as the claim states: deserialising one channel per direction and
re-serialising yields the directions in N, S, W, E order. -/
theorem c9_order_is_nswe_not_nsew_cex :
    (Channels.serialize_channels (Channels.deserialize_channels
        [Channel.new .North 0 400 none, Channel.new .South 0 400 none,
         Channel.new .East 0 400 none, Channel.new .West 0 400 none])).map
      (·.direction) = [.North, .South, .West, .East] ∧
    [Directions.North, .South, .West, .East] ≠
      [Directions.North, .South, .East, .West] := by
  refine ⟨rfl, by decide⟩

/-! ## C3: boundary classification -/

/-- Helper: `Core.calculate_edge` with its `let` inlined. -/
theorem calc_edge_eq (id C R : Nat) :
    Core.calculate_edge id C R =
      if id % C = 0 then
        if id = 0 then some .TopLeft
        else if id = (R - 1) * C then some .BottomLeft
        else some .Left
      else if (id + 1) % C = 0 then
        if id = C - 1 then some .TopRight
        else if id = R * C - 1 then some .BottomRight
        else some .Right
      else if id < C then some .Top
      else if (R - 1) * C < id then some .Bottom
      else none := rfl

/-- C3 (amended): for every `R, C ≥ 2` and core id in `[0, R*C)`, the
boundary classification marks the core on the left border iff
`id % C = 0`, right border iff `(id+1) % C = 0`, top border iff `id < C`,
and bottom border iff `id ≥ C*(R-1)` (the claim's strict `id > C*(R-1)`
wrongly excludes the bottom-left corner `id = C*(R-1)`); the four corner
ids classify with exactly 2 permitted directions, non-corner border ids
with exactly 1, and all other ids with 0. -/
theorem c3_boundary_classification (R C id : Nat) (hR : 2 ≤ R) (hC : 2 ≤ C)
    (hid : id < R * C) :
    (SinkSourceDirection.West ∈ permittedDirections id C R ↔ id % C = 0) ∧
    (SinkSourceDirection.East ∈ permittedDirections id C R ↔
      (id + 1) % C = 0) ∧
    (SinkSourceDirection.North ∈ permittedDirections id C R ↔ id < C) ∧
    (SinkSourceDirection.South ∈ permittedDirections id C R ↔
      C * (R - 1) ≤ id) ∧
    ((id = 0 ∨ id = C - 1 ∨ id = C * (R - 1) ∨ id = R * C - 1) →
      (permittedDirections id C R).length = 2) ∧
    ((id % C = 0 ∨ (id + 1) % C = 0 ∨ id < C ∨ C * (R - 1) ≤ id) →
      ¬(id = 0 ∨ id = C - 1 ∨ id = C * (R - 1) ∨ id = R * C - 1) →
      (permittedDirections id C R).length = 1) ∧
    (¬(id % C = 0 ∨ (id + 1) % C = 0 ∨ id < C ∨ C * (R - 1) ≤ id) →
      (permittedDirections id C R).length = 0) := by
  have hC0 : 0 < C := by omega
  obtain ⟨q, r, rfl, hr⟩ : ∃ q r, id = C * q + r ∧ r < C :=
    ⟨id / C, id % C, (Nat.div_add_mod id C).symm, Nat.mod_lt _ hC0⟩
  have hcomm : R * C = C * R := Nat.mul_comm R C
  have hcomm2 : (R - 1) * C = C * (R - 1) := Nat.mul_comm _ _
  have hmulRC : C * (R - 1) + C = C * R := by
    rw [← Nat.mul_succ]
    congr 1
    omega
  have hCR2 : C + C ≤ C * R := by
    have h := Nat.mul_le_mul_left C hR
    omega
  have hq : q < R := by
    by_contra hq'
    push_neg at hq'
    have := Nat.mul_le_mul_left C hq'
    omega
  have hmod : (C * q + r) % C = r := by
    rw [Nat.mul_add_mod]
    exact Nat.mod_eq_of_lt hr
  have hmod1 : (C * q + r + 1) % C = (r + 1) % C := by
    rw [Nat.add_assoc, Nat.mul_add_mod]
  by_cases hr0 : r = 0
  · have hm1 : (r + 1) % C = 1 := by
      rw [hr0]
      exact Nat.mod_eq_of_lt (by omega)
    by_cases hq0 : q = 0
    · -- top-left corner
      have hq00 : C * q = 0 := by rw [hq0, Nat.mul_zero]
      have hcalc : Core.calculate_edge (C * q + r) C R = some .TopLeft := by
        rw [calc_edge_eq, if_pos (by rw [hmod]; exact hr0),
          if_pos (by omega)]
      have hperm : permittedDirections (C * q + r) C R = [.North, .West] := by
        simp [permittedDirections, hcalc, EdgePosition.sinkSourceDirections]
      rw [hperm]
      refine ⟨?_, ?_, ?_, ?_, ?_, ?_, ?_⟩ <;>
        simp [hmod, hmod1, hm1] <;> omega
    · by_cases hqR : q = R - 1
      · -- bottom-left corner
        have hqq : C * q = C * (R - 1) := by rw [hqR]
        have hcalc : Core.calculate_edge (C * q + r) C R =
            some .BottomLeft := by
          rw [calc_edge_eq, if_pos (by rw [hmod]; exact hr0),
            if_neg (by omega), if_pos (by rw [hcomm2]; omega)]
        have hperm : permittedDirections (C * q + r) C R =
            [.South, .West] := by
          simp [permittedDirections, hcalc, EdgePosition.sinkSourceDirections]
        rw [hperm]
        refine ⟨?_, ?_, ?_, ?_, ?_, ?_, ?_⟩ <;>
          simp [hmod, hmod1, hm1] <;> omega
      · -- left edge
        have hqge : C ≤ C * q :=
          by simpa using Nat.mul_le_mul_left C (show 1 ≤ q by omega)
        have hqlt : C * q + C ≤ C * (R - 1) := by
          have h := Nat.mul_le_mul_left C (show q + 1 ≤ R - 1 by omega)
          rw [Nat.mul_succ] at h
          omega
        have hcalc : Core.calculate_edge (C * q + r) C R = some .Left := by
          rw [calc_edge_eq, if_pos (by rw [hmod]; exact hr0),
            if_neg (by omega), if_neg (by rw [hcomm2]; omega)]
        have hperm : permittedDirections (C * q + r) C R = [.West] := by
          simp [permittedDirections, hcalc, EdgePosition.sinkSourceDirections]
        rw [hperm]
        refine ⟨?_, ?_, ?_, ?_, ?_, ?_, ?_⟩ <;>
          simp [hmod, hmod1, hm1] <;> omega
  · by_cases hrC : r = C - 1
    · have hm1 : (r + 1) % C = 0 := by
        rw [hrC, Nat.sub_add_cancel (by omega)]
        exact Nat.mod_self C
      by_cases hq0 : q = 0
      · -- top-right corner
        have hq00 : C * q = 0 := by rw [hq0, Nat.mul_zero]
        have hcalc : Core.calculate_edge (C * q + r) C R =
            some .TopRight := by
          rw [calc_edge_eq, if_neg (by rw [hmod]; omega),
            if_pos (by rw [hmod1]; exact hm1), if_pos (by omega)]
        have hperm : permittedDirections (C * q + r) C R =
            [.North, .East] := by
          simp [permittedDirections, hcalc, EdgePosition.sinkSourceDirections]
        rw [hperm]
        refine ⟨?_, ?_, ?_, ?_, ?_, ?_, ?_⟩ <;>
          simp [hmod, hmod1, hm1] <;> omega
      · by_cases hqR : q = R - 1
        · -- bottom-right corner
          have hqq : C * q = C * (R - 1) := by rw [hqR]
          have hcalc : Core.calculate_edge (C * q + r) C R =
              some .BottomRight := by
            rw [calc_edge_eq, if_neg (by rw [hmod]; omega),
              if_pos (by rw [hmod1]; exact hm1), if_neg (by omega),
              if_pos (by omega)]
          have hperm : permittedDirections (C * q + r) C R =
              [.South, .East] := by
            simp [permittedDirections, hcalc,
              EdgePosition.sinkSourceDirections]
          rw [hperm]
          refine ⟨?_, ?_, ?_, ?_, ?_, ?_, ?_⟩ <;>
            simp [hmod, hmod1, hm1] <;> omega
        · -- right edge
          have hqge : C ≤ C * q :=
            by simpa using Nat.mul_le_mul_left C (show 1 ≤ q by omega)
          have hqlt : C * q + C ≤ C * (R - 1) := by
            have h := Nat.mul_le_mul_left C (show q + 1 ≤ R - 1 by omega)
            rw [Nat.mul_succ] at h
            omega
          have hcalc : Core.calculate_edge (C * q + r) C R = some .Right := by
            rw [calc_edge_eq, if_neg (by rw [hmod]; omega),
              if_pos (by rw [hmod1]; exact hm1), if_neg (by omega),
              if_neg (by omega)]
          have hperm : permittedDirections (C * q + r) C R = [.East] := by
            simp [permittedDirections, hcalc,
              EdgePosition.sinkSourceDirections]
          rw [hperm]
          refine ⟨?_, ?_, ?_, ?_, ?_, ?_, ?_⟩ <;>
            simp [hmod, hmod1, hm1] <;> omega
    · have hm1 : (r + 1) % C = r + 1 := Nat.mod_eq_of_lt (by omega)
      by_cases hq0 : q = 0
      · -- top edge
        have hq00 : C * q = 0 := by rw [hq0, Nat.mul_zero]
        have hcalc : Core.calculate_edge (C * q + r) C R = some .Top := by
          rw [calc_edge_eq, if_neg (by rw [hmod]; omega),
            if_neg (by rw [hmod1]; omega), if_pos (by omega)]
        have hperm : permittedDirections (C * q + r) C R = [.North] := by
          simp [permittedDirections, hcalc, EdgePosition.sinkSourceDirections]
        rw [hperm]
        refine ⟨?_, ?_, ?_, ?_, ?_, ?_, ?_⟩ <;>
          simp [hmod, hmod1, hm1] <;> omega
      · by_cases hqR : q = R - 1
        · -- bottom edge
          have hqq : C * q = C * (R - 1) := by rw [hqR]
          have hcalc : Core.calculate_edge (C * q + r) C R =
              some .Bottom := by
            rw [calc_edge_eq, if_neg (by rw [hmod]; omega),
              if_neg (by rw [hmod1]; omega), if_neg (by omega),
              if_pos (by rw [hcomm2]; omega)]
          have hperm : permittedDirections (C * q + r) C R = [.South] := by
            simp [permittedDirections, hcalc,
              EdgePosition.sinkSourceDirections]
          rw [hperm]
          refine ⟨?_, ?_, ?_, ?_, ?_, ?_, ?_⟩ <;>
            simp [hmod, hmod1, hm1] <;> omega
        · -- interior
          have hqge : C ≤ C * q :=
            by simpa using Nat.mul_le_mul_left C (show 1 ≤ q by omega)
          have hqlt : C * q + C ≤ C * (R - 1) := by
            have h := Nat.mul_le_mul_left C (show q + 1 ≤ R - 1 by omega)
            rw [Nat.mul_succ] at h
            omega
          have hcalc : Core.calculate_edge (C * q + r) C R = none := by
            rw [calc_edge_eq, if_neg (by rw [hmod]; omega),
              if_neg (by rw [hmod1]; omega), if_neg (by omega),
              if_neg (by rw [hcomm2]; omega)]
          have hperm : permittedDirections (C * q + r) C R = [] := by
            simp [permittedDirections, hcalc]
          rw [hperm]
          refine ⟨?_, ?_, ?_, ?_, ?_, ?_, ?_⟩ <;>
            simp [hmod, hmod1, hm1] <;> omega

/-- C3 witness: the amended statement applied on a 3×3 mesh at the
interior core id 4 (no permitted boundary directions). -/
theorem c3_boundary_classification_witness :
    2 ≤ 3 ∧ (4 : Nat) < 3 * 3 ∧ (permittedDirections 4 3 3).length = 0 :=
  ⟨by decide, by decide,
    (c3_boundary_classification 3 3 4 (by decide) (by decide)
      (by decide)).2.2.2.2.2.2 (by decide)⟩

/-- C3 counterexample: the claim's "bottom border iff `id > C*(R-1)`"
fails at the bottom-left corner.  On a 2×2 mesh, core id `2 = C*(R-1)`
classifies as `BottomLeft`, whose permitted directions include South, yet
`2 > 2*(2-1)` is false. -/
theorem c3_bottom_left_corner_cex :
    SinkSourceDirection.South ∈ permittedDirections 2 2 2 ∧
    ¬((2 : Nat) > 2 * (2 - 1)) := by decide

/-! ## C4: routing passes reset before recomputing -/

/-- Helper: updating a neighbour's cost does not change the
cleared-link-costs image of the `Neighbours` record. -/
theorem clear_setSel_add (ns : Neighbours) (sel : NeighbourSelector)
    (n : Neighbour) (cost : Nat) (h : ns.sel sel = some n) :
    (ns.setSel sel (some (n.add_to_cost cost))).clear_link_costs =
      ns.clear_link_costs := by
  cases sel <;>
    simp_all [Neighbours.sel, Neighbours.setSel, Neighbours.clear_link_costs,
      Neighbour.add_to_cost]

/-- Helper: `update_connection` preserves the cleared image of the
`Neighbours` record it updates. -/
theorem update_connection_clear {ns : Neighbours} {cost t : Nat} {pos : Bool}
    {sel : NeighbourSelector} {out : Nat × Nat × Neighbours}
    (h : update_connection ns cost t pos sel = .ok out) :
    out.2.2.clear_link_costs = ns.clear_link_costs := by
  unfold update_connection update_neighbour at h
  cases hsel : ns.sel sel with
  | none => rw [hsel] at h; exact Except.noConfusion h
  | some n =>
    rw [hsel] at h
    injection h with h
    rw [← h]
    exact clear_setSel_add ns sel n cost hsel

/-- Helper: replacing a looked-up entry by a clear-equal value leaves the
cleared connections matrix unchanged. -/
theorem clearConnections_aupdate {c : List (Nat × Neighbours)} {k : Nat}
    {ns ns' : Neighbours} (hl : alookup c k = some ns)
    (hc : ns'.clear_link_costs = ns.clear_link_costs) :
    clearConnections (aupdate k ns' c) = clearConnections c := by
  induction c with
  | nil => simp [alookup] at hl
  | cons p rest ih =>
    simp only [alookup] at hl
    by_cases hpk : p.1 = k
    · rw [if_pos hpk] at hl
      injection hl with hl
      simp [aupdate, if_pos hpk, clearConnections, hc, hl]
    · rw [if_neg hpk] at hl
      have htail := ih hl
      simp only [clearConnections] at htail
      simp [aupdate, if_neg hpk, clearConnections, htail]

/-- Helper: a `row_first` walk only changes link costs: the cleared
connections matrix is invariant. -/
theorem rowFirstLoop_clear (fuel : Nat) :
    ∀ (eri : EdgeRoutingInformation) (idx : Nat)
      (conns : List (Nat × Neighbours)) (ret : Report)
      (out : List (Nat × Neighbours) × Report),
      rowFirstLoop fuel eri idx conns ret = .ok out →
      clearConnections out.1 = clearConnections conns := by
  induction fuel with
  | zero => intro eri idx conns ret out h; exact absurd h (by simp [rowFirstLoop])
  | succ f ih =>
    intro eri idx conns ret out h
    rw [rowFirstLoop] at h
    cases hlook : alookup conns idx with
    | none => rw [hlook] at h; exact absurd h (by simp)
    | some ns =>
      rw [hlook] at h
      dsimp only at h
      split_ifs at h with h1 h2 h3 h4
      · cases hupd : update_connection ns eri.communication_cost
          eri.current_row false .top with
        | error e => rw [hupd] at h; exact absurd h (by simp)
        | ok trip =>
          obtain ⟨nid, t', ns'⟩ := trip
          rw [hupd] at h
          have hrec := ih _ _ _ _ _ h
          rw [hrec]
          exact clearConnections_aupdate hlook (update_connection_clear hupd)
      · cases hupd : update_connection ns eri.communication_cost
          eri.current_row true .bottom with
        | error e => rw [hupd] at h; exact absurd h (by simp)
        | ok trip =>
          obtain ⟨nid, t', ns'⟩ := trip
          rw [hupd] at h
          have hrec := ih _ _ _ _ _ h
          rw [hrec]
          exact clearConnections_aupdate hlook (update_connection_clear hupd)
      · cases hupd : update_connection ns eri.communication_cost
          eri.current_column false .left with
        | error e => rw [hupd] at h; exact absurd h (by simp)
        | ok trip =>
          obtain ⟨nid, t', ns'⟩ := trip
          rw [hupd] at h
          have hrec := ih _ _ _ _ _ h
          rw [hrec]
          exact clearConnections_aupdate hlook (update_connection_clear hupd)
      · cases hupd : update_connection ns eri.communication_cost
          eri.current_column true .right with
        | error e => rw [hupd] at h; exact absurd h (by simp)
        | ok trip =>
          obtain ⟨nid, t', ns'⟩ := trip
          rw [hupd] at h
          have hrec := ih _ _ _ _ _ h
          rw [hrec]
          exact clearConnections_aupdate hlook (update_connection_clear hupd)
      · injection h with h
        rw [← h]

/-- Helper: the `column_first` walk also leaves the cleared connections
matrix invariant. -/
theorem columnFirstLoop_clear (fuel : Nat) :
    ∀ (eri : EdgeRoutingInformation) (idx : Nat)
      (conns : List (Nat × Neighbours)) (ret : Report)
      (out : List (Nat × Neighbours) × Report),
      columnFirstLoop fuel eri idx conns ret = .ok out →
      clearConnections out.1 = clearConnections conns := by
  induction fuel with
  | zero =>
    intro eri idx conns ret out h
    exact absurd h (by simp [columnFirstLoop])
  | succ f ih =>
    intro eri idx conns ret out h
    rw [columnFirstLoop] at h
    cases hlook : alookup conns idx with
    | none => rw [hlook] at h; exact absurd h (by simp)
    | some ns =>
      rw [hlook] at h
      dsimp only at h
      split_ifs at h with h1 h2 h3 h4
      · cases hupd : update_connection ns eri.communication_cost
          eri.current_column false .left with
        | error e => rw [hupd] at h; exact absurd h (by simp)
        | ok trip =>
          obtain ⟨nid, t', ns'⟩ := trip
          rw [hupd] at h
          have hrec := ih _ _ _ _ _ h
          rw [hrec]
          exact clearConnections_aupdate hlook (update_connection_clear hupd)
      · cases hupd : update_connection ns eri.communication_cost
          eri.current_column true .right with
        | error e => rw [hupd] at h; exact absurd h (by simp)
        | ok trip =>
          obtain ⟨nid, t', ns'⟩ := trip
          rw [hupd] at h
          have hrec := ih _ _ _ _ _ h
          rw [hrec]
          exact clearConnections_aupdate hlook (update_connection_clear hupd)
      · cases hupd : update_connection ns eri.communication_cost
          eri.current_row false .top with
        | error e => rw [hupd] at h; exact absurd h (by simp)
        | ok trip =>
          obtain ⟨nid, t', ns'⟩ := trip
          rw [hupd] at h
          have hrec := ih _ _ _ _ _ h
          rw [hrec]
          exact clearConnections_aupdate hlook (update_connection_clear hupd)
      · cases hupd : update_connection ns eri.communication_cost
          eri.current_row true .bottom with
        | error e => rw [hupd] at h; exact absurd h (by simp)
        | ok trip =>
          obtain ⟨nid, t', ns'⟩ := trip
          rw [hupd] at h
          have hrec := ih _ _ _ _ _ h
          rw [hrec]
          exact clearConnections_aupdate hlook (update_connection_clear hupd)
      · injection h with h
        rw [← h]

/-- Helper: the whole per-edge `row_first` iteration leaves the cleared
connections matrix invariant. -/
theorem rowFirstGo_clear (cores : List OldCore) (tcm : List (Nat × Nat))
    (columns rows : Nat) :
    ∀ (edges : List Edge) (conns : List (Nat × Neighbours)) (ret : Report)
      (out : List (Nat × Neighbours) × Report),
      rowFirstGo cores tcm columns rows conns ret edges = .ok out →
      clearConnections out.1 = clearConnections conns := by
  intro edges
  induction edges with
  | nil =>
    intro conns ret out h
    injection h with h
    rw [← h]
  | cons e rest ih =>
    intro conns ret out h
    rw [rowFirstGo] at h
    cases heri : calculate_edge_routing_information cores tcm e columns
      rows with
    | error err => rw [heri] at h; exact Except.noConfusion h
    | ok eri =>
      rw [heri] at h
      dsimp only at h
      cases hloop : rowFirstLoop (edgeFuel eri) eri eri.start_id conns
        ret with
      | error err => rw [hloop] at h; exact Except.noConfusion h
      | ok mid =>
        obtain ⟨conns', ret'⟩ := mid
        rw [hloop] at h
        have hrec := ih _ _ _ h
        rw [hrec]
        exact rowFirstLoop_clear _ _ _ _ _ _ hloop

/-- Helper: the per-edge `column_first` iteration leaves the cleared
connections matrix invariant. -/
theorem columnFirstGo_clear (cores : List OldCore) (tcm : List (Nat × Nat))
    (columns rows : Nat) :
    ∀ (edges : List Edge) (conns : List (Nat × Neighbours)) (ret : Report)
      (out : List (Nat × Neighbours) × Report),
      columnFirstGo cores tcm columns rows conns ret edges = .ok out →
      clearConnections out.1 = clearConnections conns := by
  intro edges
  induction edges with
  | nil =>
    intro conns ret out h
    injection h with h
    rw [← h]
  | cons e rest ih =>
    intro conns ret out h
    rw [columnFirstGo] at h
    cases heri : calculate_edge_routing_information cores tcm e columns
      rows with
    | error err => rw [heri] at h; exact Except.noConfusion h
    | ok eri =>
      rw [heri] at h
      dsimp only at h
      cases hloop : columnFirstLoop (edgeFuel eri) eri eri.start_id conns
        ret with
      | error err => rw [hloop] at h; exact Except.noConfusion h
      | ok mid =>
        obtain ⟨conns', ret'⟩ := mid
        rw [hloop] at h
        have hrec := ih _ _ _ h
        rw [hrec]
        exact columnFirstLoop_clear _ _ _ _ _ _ hloop

/-- Helper: clearing link costs is idempotent on a `Neighbours` record. -/
theorem clear_link_costs_idem (ns : Neighbours) :
    ns.clear_link_costs.clear_link_costs = ns.clear_link_costs := by
  cases ns with
  | mk t r b l => cases t <;> cases r <;> cases b <;> cases l <;> rfl

/-- Helper: clearing the connections matrix is idempotent. -/
theorem clearConnections_idem (c : List (Nat × Neighbours)) :
    clearConnections (clearConnections c) = clearConnections c := by
  unfold clearConnections
  rw [List.map_map]
  apply List.map_congr_left
  intro p _
  simp [Function.comp, clear_link_costs_idem]

/-- C4: calling the routing entry point (`task_graph_route`) twice in
succession with the same algorithm on an unchanged topology and task graph
returns an identical report and leaves every channel with an identical
final accumulated load: each pass first resets every link cost to zero
(`clear_links`) before recomputing, so no load carries over from the
previous pass. -/
theorem c4_task_graph_route_idempotent (m : ManycoreSystem)
    (alg : RoutingAlgorithms) (out : List (Nat × Neighbours) × Report)
    (h : m.task_graph_route alg = .ok out) :
    ManycoreSystem.task_graph_route { m with connections := out.1 } alg =
      .ok out := by
  cases alg with
  | ColumnFirst =>
    unfold ManycoreSystem.task_graph_route ManycoreSystem.column_first
      at h ⊢
    dsimp only at h ⊢
    have hc := columnFirstGo_clear _ _ _ _ _ _ _ _ h
    rw [clearConnections_idem] at hc
    rw [hc]
    exact h
  | RowFirst =>
    unfold ManycoreSystem.task_graph_route ManycoreSystem.row_first at h ⊢
    dsimp only at h ⊢
    have hc := rowFirstGo_clear _ _ _ _ _ _ _ _ h
    rw [clearConnections_idem] at hc
    rw [hc]
    exact h
  | Observed =>
    unfold ManycoreSystem.task_graph_route ManycoreSystem.row_first at h ⊢
    dsimp only at h ⊢
    have hc := rowFirstGo_clear _ _ _ _ _ _ _ _ h
    rw [clearConnections_idem] at hc
    rw [hc]
    exact h

/-- C4 witness: on the concrete 2×2 system, the first RowFirst pass
succeeds, and re-running the pass on the resulting system returns the
identical report and identical final link loads. -/
theorem c4_task_graph_route_idempotent_witness :
    ManycoreSystem.task_graph_route system2x2 .RowFirst =
      .ok ([(0, ⟨none, some ⟨1, 0⟩, some ⟨2, 5⟩, none⟩),
            (1, ⟨none, none, some ⟨3, 0⟩, some ⟨0, 0⟩⟩),
            (2, ⟨some ⟨0, 0⟩, some ⟨3, 5⟩, none, none⟩),
            (3, ⟨some ⟨1, 0⟩, none, none, some ⟨2, 0⟩⟩)],
           [(0, [.SouthOutput]), (2, [.EastOutput])]) ∧
    ManycoreSystem.task_graph_route
        { system2x2 with connections :=
            [(0, ⟨none, some ⟨1, 0⟩, some ⟨2, 5⟩, none⟩),
             (1, ⟨none, none, some ⟨3, 0⟩, some ⟨0, 0⟩⟩),
             (2, ⟨some ⟨0, 0⟩, some ⟨3, 5⟩, none, none⟩),
             (3, ⟨some ⟨1, 0⟩, none, none, some ⟨2, 0⟩⟩)] } .RowFirst =
      .ok ([(0, ⟨none, some ⟨1, 0⟩, some ⟨2, 5⟩, none⟩),
            (1, ⟨none, none, some ⟨3, 0⟩, some ⟨0, 0⟩⟩),
            (2, ⟨some ⟨0, 0⟩, some ⟨3, 5⟩, none, none⟩),
            (3, ⟨some ⟨1, 0⟩, none, none, some ⟨2, 0⟩⟩)],
           [(0, [.SouthOutput]), (2, [.EastOutput])]) :=
  ⟨rfl, c4_task_graph_route_idempotent system2x2 .RowFirst _ rfl⟩

/-! ## C10: the core-border index -/

/-- Helper: lookup after a `HashMap::insert`. -/
theorem hmLookup_hmInsert {κ α : Type} [DecidableEq κ] (k k' : κ) (v : α)
    (m : List (κ × α)) :
    hmLookup k (hmInsert k' v m) =
      if k' = k then some v else hmLookup k m := by
  induction m with
  | nil => simp [hmInsert, hmLookup]
  | cons p rest ih =>
    by_cases hpk' : p.1 = k'
    · simp only [hmInsert, if_pos hpk', hmLookup]
      by_cases hk'k : k' = k
      · rw [if_pos (hpk'.trans hk'k), if_pos hk'k]
      · rw [if_neg (by rw [hpk']; exact hk'k), if_neg hk'k]
        simp [hmLookup, if_neg (show ¬p.1 = k by rw [hpk']; exact hk'k)]
    · simp only [hmInsert, if_neg hpk', hmLookup, ih]
      by_cases hk'k : k' = k
      · have hpk : ¬p.1 = k := fun hh => hpk' (hh.trans hk'k.symm)
        simp [hk'k, hpk]
      · by_cases hpk : p.1 = k <;> simp [hk'k, hpk]

/-- Helper: a `borderMapInsert` is visible at exactly its core/direction
pair; every other lookup is unchanged. -/
theorem borderMapLookup_insert (c0 : Nat) (d0 : SinkSourceDirection)
    (e : BorderEntry)
    (m : List (Nat × List (SinkSourceDirection × BorderEntry)))
    (c : Nat) (d : SinkSourceDirection) :
    borderMapLookup (borderMapInsert c0 d0 e m) c d =
      if c = c0 ∧ d = d0 then some e else borderMapLookup m c d := by
  unfold borderMapInsert borderMapLookup
  rw [hmLookup_hmInsert]
  by_cases hc : c0 = c
  · rw [if_pos hc]
    rw [Option.some_bind, hmLookup_hmInsert]
    by_cases hd : d0 = d
    · rw [if_pos hd, if_pos ⟨hc.symm, hd.symm⟩]
    · rw [if_neg hd, if_neg (fun hcd => hd hcd.2.symm)]
      subst hc
      cases hml : hmLookup c0 m <;> simp [hml, hmLookup]
  · rw [if_neg hc, if_neg (fun hcd => hc hcd.1.symm)]

/-- Helper: after folding border elements into the index, a lookup sees
the entry of the last matching element, falling back to the initial map. -/
theorem borderMapLookup_fold {α : Type} (coreOf : α → Nat)
    (dirOf : α → SinkSourceDirection) (entryOf : α → BorderEntry)
    (l : List α) :
    ∀ (m : List (Nat × List (SinkSourceDirection × BorderEntry)))
      (c : Nat) (d : SinkSourceDirection),
      borderMapLookup (borderEntriesFold coreOf dirOf entryOf m l) c d =
        match lastMatch (fun x => decide (coreOf x = c ∧ dirOf x = d)) l with
        | some x => some (entryOf x)
        | none => borderMapLookup m c d := by
  induction l with
  | nil => intro m c d; rfl
  | cons x xs ih =>
    intro m c d
    simp only [borderEntriesFold, lastMatch]
    rw [ih]
    cases hlm : lastMatch (fun x => decide (coreOf x = c ∧ dirOf x = d))
      xs with
    | some y => rfl
    | none =>
      rw [borderMapLookup_insert]
      by_cases hx : coreOf x = c ∧ dirOf x = d
      · rw [if_pos ⟨hx.1.symm, hx.2.symm⟩]
        simp [hx]
      · rw [if_neg (fun hcd => hx ⟨hcd.1.symm, hcd.2.symm⟩)]
        simp [hx]

/-- C10 (amended): after `compute_core_border_map` runs (on an initially
empty index), the entry at `(core, direction)` is `Sink t` where `t` is
the task id of the LAST sink in map-iteration (ascending task-id key)
order with that core and direction, if any sink matches; otherwise
`Source t` for the last matching source; otherwise absent.  Sinks are
inserted after all sources, and a later insertion at the same core and
direction overwrites an earlier one — so a sink's entry replaces a
source's, and also an earlier sink's or source's entry is replaced by a
later one with the same core and direction. -/
theorem c10_border_map_last_insertion_wins (b : Borders)
    (h : b.core_border_map = []) (c : Nat) (d : SinkSourceDirection) :
    (b.compute_core_border_map).borderLookup c d =
      (match lastMatch
          (fun p => decide (p.2.core_id = c ∧ p.2.direction = d)) b.sinks with
       | some p => some (.Sink p.2.task_id)
       | none =>
         match lastMatch
             (fun p => decide (p.2.core_id = c ∧ p.2.direction = d))
             b.sources with
         | some p => some (.Source p.2.task_id)
         | none => none) := by
  unfold Borders.compute_core_border_map Borders.borderLookup
  dsimp only
  rw [borderMapLookup_fold]
  cases lastMatch
      (fun p => decide (p.2.core_id = c ∧ p.2.direction = d)) b.sinks with
  | some p => rfl
  | none =>
    rw [borderMapLookup_fold]
    cases lastMatch
        (fun p => decide (p.2.core_id = c ∧ p.2.direction = d))
        b.sources with
    | some p => rfl
    | none => rw [h]; rfl

/-- C10 witness: on `exampleBorders` (initial index empty) the amended
statement applied at core 0, direction North evaluates to the last
matching sink, task 2. -/
theorem c10_border_map_last_insertion_wins_witness :
    exampleBorders.core_border_map = [] ∧
    (Borders.compute_core_border_map exampleBorders).borderLookup 0 .North =
      some (.Sink 2) :=
  ⟨rfl,
    (c10_border_map_last_insertion_wins exampleBorders rfl 0 .North).trans
      rfl⟩

/-- C10 counterexample: the claim says every sink's entry equals
`Sink(sink.task_id)`.  In `exampleBorders`, the sink with task id 1 (core
0, North) is present, but the computed entry at core 0, North is
`Sink 2` — the later sink with the same core and direction overwrote
it. -/
theorem c10_duplicate_sink_overwritten_cex :
    (1, (⟨0, .North, 1⟩ : Sink)) ∈ exampleBorders.sinks ∧
    (Borders.compute_core_border_map exampleBorders).borderLookup 0 .North =
      some (.Sink 2) ∧
    some (BorderEntry.Sink 2) ≠ some (BorderEntry.Sink 1) := by
  refine ⟨by decide, rfl, by decide⟩

/-! ## C5: unresolved task ids abort the routing pass -/

/-- Helper: the only error `task_id_to_endpoint` produces is a
RoutingError. -/
theorem task_id_to_endpoint_error_kind (sys : RoutedSystem) (t : Nat)
    (e : ManycoreError) (h : sys.task_id_to_endpoint t = .error e) :
    e.isRoutingError = true := by
  unfold RoutedSystem.task_id_to_endpoint at h
  split at h
  · exact Except.noConfusion h
  · split at h
    · exact Except.noConfusion h
    · split at h
      · exact Except.noConfusion h
      · injection h with h
        rw [← h]
        rfl

/-- Helper: the only error `Channels.add_to_cost` produces is a
RoutingError. -/
theorem channels_add_to_cost_error_kind (cs : Channels) (cost : Nat)
    (d : Directions) (e : ManycoreError)
    (h : cs.add_to_cost cost d = .error e) : e.isRoutingError = true := by
  unfold Channels.add_to_cost at h
  split at h
  · injection h with h
    rw [← h]
    rfl
  · exact Except.noConfusion h

/-- Helper: the only errors `updateCoreChannel` produces are
RoutingErrors. -/
theorem updateCoreChannel_error_kind (cores : List Core) (idx cost : Nat)
    (d : Directions) (e : ManycoreError)
    (h : updateCoreChannel cores idx cost d = .error e) :
    e.isRoutingError = true := by
  unfold updateCoreChannel at h
  split at h
  · injection h with h
    rw [← h]
    rfl
  · split at h
    · rename_i heq
      injection h with h
      exact h ▸ channels_add_to_cost_error_kind _ _ _ _ heq
    · exact Except.noConfusion h

/-- Helper: the only error `Core.add_source_load` produces is a
RoutingError. -/
theorem add_source_load_error_kind (c : Core) (load : Nat) (d : Directions)
    (e : ManycoreError) (h : c.add_source_load load d = .error e) :
    e.isRoutingError = true := by
  unfold Core.add_source_load at h
  split at h
  · injection h with h
    rw [← h]
    rfl
  · exact Except.noConfusion h

/-- Helper: the only errors `accountSourceLoad` produces are
RoutingErrors. -/
theorem accountSourceLoad_error_kind (cores : List Core)
    (events : List RouteEvent) (sc cost : Nat)
    (fd : Option SinkSourceDirection) (e : ManycoreError)
    (h : accountSourceLoad cores events sc cost fd = .error e) :
    e.isRoutingError = true := by
  unfold accountSourceLoad at h
  split at h
  · exact Except.noConfusion h
  · split at h
    · injection h with h
      rw [← h]
      rfl
    · split at h
      · rename_i heq
        injection h with h
        exact h ▸ add_source_load_error_kind _ _ _ _ heq
      · exact Except.noConfusion h

/-- Helper: the only errors `accountSinkChannel` produces are
RoutingErrors. -/
theorem accountSinkChannel_error_kind (cores : List Core)
    (events : List RouteEvent) (dc cost : Nat)
    (td : Option SinkSourceDirection) (e : ManycoreError)
    (h : accountSinkChannel cores events dc cost td = .error e) :
    e.isRoutingError = true := by
  unfold accountSinkChannel at h
  split at h
  · exact Except.noConfusion h
  · split at h
    · rename_i heq
      injection h with h
      exact h ▸ updateCoreChannel_error_kind _ _ _ _ _ heq
    · exact Except.noConfusion h

/-- Helper: the only errors the modelled dimension-order walk produces are
RoutingErrors. -/
theorem specWalkLoop_error_kind (fuel : Nat) :
    ∀ (ro : Bool) (cols sr sc dr dc cost cid crow ccol : Nat)
      (cores : List Core) (events : List RouteEvent) (e : ManycoreError),
      specWalkLoop fuel ro cols sr sc dr dc cost cid crow ccol cores
        events = .error e → e.isRoutingError = true := by
  induction fuel with
  | zero =>
    intro ro cols sr sc dr dc cost cid crow ccol cores events e h
    rw [specWalkLoop] at h
    injection h with h
    rw [← h]
    rfl
  | succ f ih =>
    intro ro cols sr sc dr dc cost cid crow ccol cores events e h
    rw [specWalkLoop] at h
    split_ifs at h with h1 h2 h3 h4 <;>
      (split at h
       · rename_i heq
         injection h with h
         exact h ▸ updateCoreChannel_error_kind _ _ _ _ _ heq
       · exact ih _ _ _ _ _ _ _ _ _ _ _ _ _ h)

/-- Helper: the only errors `routeOneEdge` produces are RoutingErrors. -/
theorem routeOneEdge_error_kind (sys : RoutedSystem) (ro : Bool)
    (acc : List Core × List RouteEvent) (edge : Edge) (e : ManycoreError)
    (h : routeOneEdge sys ro acc edge = .error e) :
    e.isRoutingError = true := by
  unfold routeOneEdge at h
  split at h
  · rename_i heq
    injection h with h
    exact h ▸ task_id_to_endpoint_error_kind _ _ _ heq
  · split at h
    · rename_i heq
      injection h with h
      exact h ▸ task_id_to_endpoint_error_kind _ _ _ heq
    · split at h
      · rename_i heq
        injection h with h
        exact h ▸ accountSourceLoad_error_kind _ _ _ _ _ _ heq
      · split at h
        · rename_i heq
          injection h with h
          exact h ▸ specWalkLoop_error_kind _ _ _ _ _ _ _ _ _ _ _ _ _ _ heq
        · exact accountSinkChannel_error_kind _ _ _ _ _ _ h

/-- Helper: the only errors the per-edge iteration produces are
RoutingErrors. -/
theorem routeGo_error_kind (sys : RoutedSystem) (ro : Bool) :
    ∀ (edges : List Edge) (cores : List Core) (events : List RouteEvent)
      (e : ManycoreError),
      routeGo sys ro cores events edges = .error e →
      e.isRoutingError = true := by
  intro edges
  induction edges with
  | nil =>
    intro cores events e h
    exact Except.noConfusion h
  | cons x rest ih =>
    intro cores events e h
    rw [routeGo] at h
    split at h
    · rename_i heq
      injection h with h
      exact h ▸ routeOneEdge_error_kind _ _ _ _ _ heq
    · exact ih _ _ _ h

/-- Helper: the only errors `route` produces are RoutingErrors. -/
theorem route_error_kind (sys : RoutedSystem) (alg : RoutingAlgorithms)
    (e : ManycoreError) (h : sys.route alg = .error e) :
    e.isRoutingError = true := by
  cases alg with
  | Observed =>
    unfold RoutedSystem.route at h
    dsimp only at h
    rcases hobs : observed_route_model sys.cores with ⟨rep, cores'⟩
    rw [hobs] at h
    exact Except.noConfusion h
  | RowFirst =>
    unfold RoutedSystem.route at h
    dsimp only at h
    split at h
    · rename_i heq
      injection h with h
      exact h ▸ routeGo_error_kind _ _ _ _ _ _ heq
    · exact Except.noConfusion h
  | ColumnFirst =>
    unfold RoutedSystem.route at h
    dsimp only at h
    split at h
    · rename_i heq
      injection h with h
      exact h ▸ routeGo_error_kind _ _ _ _ _ _ heq
    · exact Except.noConfusion h

/-- Helper: a task id absent from the task-to-core index, the sinks and
the sources resolves to the "not allocated" RoutingError. -/
theorem task_id_to_endpoint_unresolved (sys : RoutedSystem) (t : Nat)
    (h1 : alookup sys.task_core_map t = none)
    (h2 : alookup sys.borders.sinks t = none)
    (h3 : alookup sys.borders.sources t = none) :
    sys.task_id_to_endpoint t =
      .error (routing_error
        "Task is not allocated on any core, sink, or source.") := by
  unfold RoutedSystem.task_id_to_endpoint
  rw [h1, h2, h3]

/-- Helper: an edge with an unresolvable endpoint makes `routeOneEdge`
fail, whatever the accumulated state. -/
theorem routeOneEdge_unresolved_isOk_false (sys : RoutedSystem) (ro : Bool)
    (acc : List Core × List RouteEvent) (edge : Edge) (t : Nat)
    (hft : edge.from_ = t ∨ edge.to_ = t)
    (h1 : alookup sys.task_core_map t = none)
    (h2 : alookup sys.borders.sinks t = none)
    (h3 : alookup sys.borders.sources t = none) :
    (routeOneEdge sys ro acc edge).isOk = false := by
  have herr := task_id_to_endpoint_unresolved sys t h1 h2 h3
  unfold routeOneEdge
  rcases hft with hf | ht
  · rw [hf, herr]
    rfl
  · cases hres : sys.task_id_to_endpoint edge.from_ with
    | error e => rfl
    | ok pair =>
      obtain ⟨sc, fd⟩ := pair
      rw [ht, herr]
      rfl

/-- Helper: a task graph containing an edge with an unresolvable endpoint
makes the whole per-edge iteration fail. -/
theorem routeGo_unresolved_isOk_false (sys : RoutedSystem) (ro : Bool)
    (t : Nat) (h1 : alookup sys.task_core_map t = none)
    (h2 : alookup sys.borders.sinks t = none)
    (h3 : alookup sys.borders.sources t = none) :
    ∀ (edges : List Edge) (cores : List Core) (events : List RouteEvent)
      (edge : Edge), edge ∈ edges → (edge.from_ = t ∨ edge.to_ = t) →
      (routeGo sys ro cores events edges).isOk = false := by
  intro edges
  induction edges with
  | nil =>
    intro cores events edge hmem hft
    exact absurd hmem (List.not_mem_nil _)
  | cons x rest ih =>
    intro cores events edge hmem hft
    rw [routeGo]
    rcases List.mem_cons.mp hmem with he | he
    · subst he
      cases hone : routeOneEdge sys ro (cores, events) edge with
      | error err => rfl
      | ok out =>
        have hfail := routeOneEdge_unresolved_isOk_false sys ro
          (cores, events) edge t hft h1 h2 h3
        rw [hone] at hfail
        exact Bool.noConfusion hfail
    · cases hone : routeOneEdge sys ro (cores, events) x with
      | error err => rfl
      | ok out =>
        obtain ⟨cores', events'⟩ := out
        exact ih cores' events' edge he hft

/-- C5 (spec-modelled): for every task graph containing an edge whose
`from` or `to` task id is absent from the allocated-core index, the sinks
and the sources, a routing pass under RowFirst or ColumnFirst returns a
RoutingError and produces no routing report; a task id present in any one
of those three places does not trigger this error (its endpoint
resolution succeeds). -/
theorem c5_unresolved_task_aborts_route (sys : RoutedSystem)
    (alg : RoutingAlgorithms) (edge : Edge) (t u : Nat)
    (halg : alg = RoutingAlgorithms.RowFirst ∨
      alg = RoutingAlgorithms.ColumnFirst)
    (hmem : edge ∈ sys.task_graph)
    (hft : edge.from_ = t ∨ edge.to_ = t)
    (h1 : alookup sys.task_core_map t = none)
    (h2 : alookup sys.borders.sinks t = none)
    (h3 : alookup sys.borders.sources t = none)
    (hu : (alookup sys.task_core_map u).isSome ∨
      (alookup sys.borders.sinks u).isSome ∨
      (alookup sys.borders.sources u).isSome) :
    failsWithRoutingError (sys.route alg) = true ∧
    (sys.task_id_to_endpoint u).isOk = true := by
  constructor
  · have hgo : ∀ ro, (routeGo sys ro (clearAllLoads sys.cores) []
        sys.task_graph).isOk = false := fun ro =>
      routeGo_unresolved_isOk_false sys ro t h1 h2 h3 sys.task_graph _ _
        edge hmem hft
    cases hroute : sys.route alg with
    | ok out =>
      exfalso
      rcases halg with halg | halg
      · subst halg
        unfold RoutedSystem.route at hroute
        dsimp only at hroute
        split at hroute
        · exact Except.noConfusion hroute
        · rename_i heq
          have hfalse := hgo true
          rw [heq] at hfalse
          exact Bool.noConfusion hfalse
      · subst halg
        unfold RoutedSystem.route at hroute
        dsimp only at hroute
        split at hroute
        · exact Except.noConfusion hroute
        · rename_i heq
          have hfalse := hgo false
          rw [heq] at hfalse
          exact Bool.noConfusion hfalse
    | error e =>
      exact route_error_kind sys alg e hroute
  · unfold RoutedSystem.task_id_to_endpoint
    cases hm : alookup sys.task_core_map u with
    | some c => rfl
    | none =>
      cases hs : alookup sys.borders.sinks u with
      | some sk => rfl
      | none =>
        cases hso : alookup sys.borders.sources u with
        | some so => rfl
        | none =>
          rw [hm, hs, hso] at hu
          simp at hu

/-- C5 witness: on `exampleRoutedSystem` the edge references task 7
(absent everywhere), so the RowFirst pass fails with a RoutingError,
while task 9 (a sink) resolves successfully. -/
theorem c5_unresolved_task_aborts_route_witness :
    failsWithRoutingError
        (RoutedSystem.route exampleRoutedSystem .RowFirst) = true ∧
    (RoutedSystem.task_id_to_endpoint exampleRoutedSystem 9).isOk = true :=
  c5_unresolved_task_aborts_route exampleRoutedSystem .RowFirst
    { from_ := 7, to_ := 8, communication_cost := 1 } 7 9 (Or.inl rfl)
    (by decide) (Or.inl rfl) rfl rfl rfl (Or.inr (Or.inl (by decide)))

/-! ## C6: the observed replay policy -/

/-- Helper: a successful `channelFind?` returns an entry with the searched
key that belongs to the list. -/
theorem channelFind?_eq_some {d : Directions}
    {l : List (Directions × Channel)} {p : Directions × Channel}
    (h : channelFind? d l = some p) : p.1 = d ∧ p ∈ l := by
  induction l with
  | nil => exact Option.noConfusion h
  | cons x rest ih =>
    unfold channelFind? at h
    split_ifs at h with hx
    · injection h with h
      exact ⟨h ▸ hx, h ▸ List.mem_cons_self _ _⟩
    · obtain ⟨hk, hm⟩ := ih h
      exact ⟨hk, List.mem_cons_of_mem _ hm⟩

/-- Helper: `channelFind?` commutes with a key-preserving map. -/
theorem channelFind?_map (g : Directions × Channel → Directions × Channel)
    (hg : ∀ p, (g p).1 = p.1) (d : Directions) :
    ∀ l : List (Directions × Channel),
      channelFind? d (l.map g) = (channelFind? d l).map g := by
  intro l
  induction l with
  | nil => rfl
  | cons x rest ih =>
    simp only [List.map_cons, channelFind?, hg x]
    split_ifs with hx
    · rfl
    · exact ih

/-- Helper: in a list with pairwise-distinct keys, an entry is determined
by its key. -/
theorem eq_of_mem_of_nodup_keys {l : List (Directions × Channel)}
    (h : (l.map (·.1)).Nodup) {p p' : Directions × Channel} (hp : p ∈ l)
    (hp' : p' ∈ l) (hk : p.1 = p'.1) : p = p' := by
  induction l with
  | nil => exact absurd hp (List.not_mem_nil _)
  | cons x rest ih =>
    rw [List.map_cons, List.nodup_cons] at h
    obtain ⟨hx, hrest⟩ := h
    rcases List.mem_cons.mp hp with hp1 | hp1 <;>
      rcases List.mem_cons.mp hp' with hp2 | hp2
    · rw [hp1, hp2]
    · exact absurd (List.mem_map.mpr ⟨p', hp2, (hp1 ▸ hk).symm⟩) hx
    · exact absurd (List.mem_map.mpr ⟨p, hp1, hp2 ▸ hk⟩) hx
    · exact ih hrest hp1 hp2

/-- C6 (spec-modelled): under the Observed policy no geometric path is
computed; for every channel of every core whose baseline
`actual_com_cost` is non-zero, exactly that baseline value is the
channel's load after the pass (the initial reset zeroes it first), and
the core/direction pair is recorded as used in the report; channels with
a zero baseline end with load 0 and get no report entry. -/
theorem c6_observed_replays_channel_baselines (cores : List Core)
    (hwf : CoresWF cores) (i : Nat) (d : Directions) (ch : Channel)
    (hch : coreChannelEntry cores i d = some ch) :
    (ch.actual_com_cost ≠ 0 →
      coreChannelEntry (observed_route_model cores).2 i d =
        some { ch with current_load := ch.actual_com_cost } ∧
      (i, d) ∈ (observed_route_model cores).1) ∧
    (ch.actual_com_cost = 0 →
      coreChannelEntry (observed_route_model cores).2 i d =
        some { ch with current_load := 0 } ∧
      (i, d) ∉ (observed_route_model cores).1) := by
  unfold coreChannelEntry at hch
  cases hcore : cores.get? i with
  | none => rw [hcore] at hch; exact Option.noConfusion hch
  | some core =>
    rw [hcore, Option.some_bind] at hch
    cases hfind : channelFind? d core.channels.channel with
    | none => rw [hfind] at hch; exact Option.noConfusion hch
    | some p =>
      rw [hfind] at hch
      injection hch with hch
      have hch2 : p.2 = ch := hch
      clear hch
      subst hch2
      obtain ⟨hpd, hpmem⟩ := channelFind?_eq_some hfind
      have hcoremem : core ∈ cores := List.get?_mem hcore
      obtain ⟨hnodup, hbound⟩ := hwf core hcoremem
      have hchlt : p.2.actual_com_cost < U16_MOD := hbound p hpmem
      have hilen : i < cores.length := by
        by_contra hlen
        push_neg at hlen
        rw [List.get?_eq_none.mpr hlen] at hcore
        exact Option.noConfusion hcore
      have hzg : ∀ q, (observedChannelUpdate q).1 = q.1 := by
        intro q
        unfold observedChannelUpdate
        split <;> rfl
      have hzz : ∀ q : Directions × Channel, (clearChannelEntry q).1 = q.1 :=
        fun q => rfl
      have hget2 : coreChannelEntry (observed_route_model cores).2 i d =
          some ((observedChannelUpdate (clearChannelEntry p)).2) := by
        unfold coreChannelEntry observed_route_model clearAllLoads
        dsimp only
        rw [List.get?_map, List.get?_map, hcore]
        simp only [Option.map_some', Option.some_bind]
        show (channelFind? d
            ((core.channels.channel.map clearChannelEntry).map
              observedChannelUpdate)).map (·.2) = _
        rw [channelFind?_map _ hzg, channelFind?_map _ hzz, hfind]
        rfl
      constructor
      · intro hacc
        constructor
        · rw [hget2]
          have hval : (observedChannelUpdate (clearChannelEntry p)).2 =
              { p.2 with current_load := p.2.actual_com_cost } := by
            unfold observedChannelUpdate clearChannelEntry
            split
            · dsimp only [Channel.add_to_cost]
              simp [Nat.mod_eq_of_lt hchlt]
            · rename_i hcond
              exact absurd hacc (by simpa using hcond)
          rw [hval]
        · refine List.mem_flatMap.mpr
            ⟨i, List.mem_range.mpr hilen, ?_⟩
          unfold observedReportEntries
          rw [hcore]
          refine List.mem_map.mpr ⟨p, ?_, ?_⟩
          · exact List.mem_filter.mpr ⟨hpmem, by simp [hacc]⟩
          · rw [hpd]
      · intro hacc
        constructor
        · rw [hget2]
          have hval : (observedChannelUpdate (clearChannelEntry p)).2 =
              { p.2 with current_load := 0 } := by
            unfold observedChannelUpdate clearChannelEntry
            rw [if_neg (by simp [hacc])]
          rw [hval]
        · intro hmem
          obtain ⟨j, hj, hmem'⟩ := List.mem_flatMap.mp hmem
          unfold observedReportEntries at hmem'
          cases hget : cores.get? j with
          | none => rw [hget] at hmem'; exact absurd hmem' (List.not_mem_nil _)
          | some core' =>
            rw [hget] at hmem'
            obtain ⟨p', hp'f, hp'e⟩ := List.mem_map.mp hmem'
            obtain ⟨hp'mem, hp'acc⟩ := List.mem_filter.mp hp'f
            injection hp'e with hj2 hd2
            subst hj2
            have hcc : core = core' := by
              have := hcore.symm.trans hget
              injection this
            rw [← hcc] at hp'mem
            have hpp : p' = p :=
              eq_of_mem_of_nodup_keys hnodup hp'mem hpmem
                (by rw [hd2, hpd])
            rw [hpp] at hp'acc
            simp [hacc] at hp'acc

/-- C6 witness: on `exampleCores` the North channel (baseline 3) ends with
load 3 after the observed replay and appears in the report. -/
theorem c6_observed_replays_channel_baselines_witness :
    coreChannelEntry exampleCores 0 .North =
      some (Channel.new .North 3 400 none) ∧
    (coreChannelEntry (observed_route_model exampleCores).2 0 .North =
      some { Channel.new .North 3 400 none with current_load := 3 } ∧
    (0, Directions.North) ∈ (observed_route_model exampleCores).1) :=
  ⟨rfl,
    (c6_observed_replays_channel_baselines exampleCores
      (by unfold CoresWF; decide) 0 .North (Channel.new .North 3 400 none)
      rfl).1 (by decide)⟩
